import Mathlib

/-!
# Verification of the resilience and dispatch layer of `kerygma_social`

Shallow embedding of the core components of the repository:
circuit breaker (`circuit_breaker.py`), retry with exponential backoff
(`retry.py`), token-bucket rate limiter (`rate_limiter.py`), delivery
ledger (`delivery_log.py`) and the POSSE dispatch orchestrator
(`posse.py`).

Conventions of the embedding:
* Python floats (times, delays, token counts) are modelled as rationals
  (`ℚ`); machine rounding is outside the scope of the verified claims.
* The injectable monotonic clock is modelled by passing the clock
  reading `now : ℚ` explicitly to each operation that reads it.
* Mutable objects become explicit state passed in and returned.
* A Python callable that may raise becomes an oracle valued in
  `Except`; whether the callee was actually invoked is tracked
  explicitly by the caller's result structure.
-/

/-! ## Circuit breaker (`circuit_breaker.py`) -/

/-- `CircuitState` enum.  The Python member `OPEN` is spelled `opened`
because `open` is a Lean keyword. -/
inductive CircuitState where
  | closed
  | opened
  | halfOpen
deriving DecidableEq, Repr

/-- `CircuitBreakerConfig` together with the mutable fields of
`CircuitBreaker.__init__`. -/
structure CircuitBreaker where
  failureThreshold : Nat := 5
  resetTimeout : ℚ := 60
  halfOpenMaxCalls : Nat := 1
  state : CircuitState := .closed
  failureCount : Nat := 0
  successCount : Nat := 0
  lastFailureTime : ℚ := 0
  halfOpenCalls : Nat := 0
deriving DecidableEq, Repr

/-- The lazy `state` property: an OPEN breaker whose reset timeout has
elapsed becomes HALF_OPEN (trial counter cleared) before the state is
reported.  Returns the reported state together with the updated
breaker. -/
def CircuitBreaker.readState (cb : CircuitBreaker) (now : ℚ) :
    CircuitState × CircuitBreaker :=
  if cb.state = .opened ∧ now - cb.lastFailureTime ≥ cb.resetTimeout then
    let cb' := { cb with state := .halfOpen, halfOpenCalls := 0 }
    (CircuitState.halfOpen, cb')
  else
    (cb.state, cb)

/-- `CircuitBreaker._on_success`. -/
def CircuitBreaker.onSuccess (cb : CircuitBreaker) : CircuitBreaker :=
  let cb := if cb.state = .halfOpen then { cb with state := .closed } else cb
  { cb with failureCount := 0, successCount := cb.successCount + 1 }

/-- `CircuitBreaker._on_failure` (the clock is read again here in the
source; within one `call` both readings are the same injected `now`). -/
def CircuitBreaker.onFailure (cb : CircuitBreaker) (now : ℚ) : CircuitBreaker :=
  let cb := { cb with failureCount := cb.failureCount + 1, lastFailureTime := now }
  if cb.failureCount ≥ cb.failureThreshold then
    { cb with state := .opened }
  else cb

/-- `CircuitBreaker.reset`. -/
def CircuitBreaker.reset (cb : CircuitBreaker) : CircuitBreaker :=
  { cb with state := .closed, failureCount := 0, halfOpenCalls := 0 }

/-- Result of `CircuitBreaker.call`: either the call was rejected with
`CircuitOpenError` (the wrapped function never ran), or the wrapped
function ran and returned, or it ran and raised (the error propagates
after `_on_failure`). -/
inductive CallResult (ε α : Type) where
  | rejected (resetAt : ℚ)
  | ok (a : α)
  | failed (e : ε)
deriving DecidableEq, Repr

/-- Whether the wrapped function was invoked by this `call`. -/
def CallResult.invoked {ε α : Type} : CallResult ε α → Bool
  | .rejected _ => false
  | _ => true

/-- `CircuitBreaker.call`.  `outcome` is the behaviour the wrapped
function would exhibit if invoked now; it is consulted only on the
non-rejected paths, mirroring that a rejected call never runs `func`. -/
def CircuitBreaker.call {ε α : Type} (cb : CircuitBreaker) (now : ℚ)
    (outcome : Except ε α) : CallResult ε α × CircuitBreaker :=
  let (currentState, cb) := cb.readState now
  if currentState = .opened then
    (.rejected (cb.lastFailureTime + cb.resetTimeout), cb)
  else if currentState = .halfOpen ∧ cb.halfOpenCalls ≥ cb.halfOpenMaxCalls then
    (.rejected (cb.lastFailureTime + cb.resetTimeout), cb)
  else
    let cb := if currentState = .halfOpen then
        { cb with halfOpenCalls := cb.halfOpenCalls + 1 } else cb
    match outcome with
    | .ok a => (.ok a, cb.onSuccess)
    | .error e => (.failed e, cb.onFailure now)

/-- Folding a run of calls whose outcomes all fail with error `e`, at
the given clock readings (earliest first). -/
def CircuitBreaker.failCalls {ε α : Type} (cb : CircuitBreaker) (e : ε)
    (times : List ℚ) : CircuitBreaker :=
  times.foldl (fun acc t => (CircuitBreaker.call (ε := ε) (α := α) acc t (.error e)).2) cb

/-! ## Retry with exponential backoff (`retry.py`) -/

/-- `RetryConfig`.  Membership in `retryable_exceptions` is modelled by
the predicate argument `retryable` of `retryRun`. -/
structure RetryConfig where
  maxAttempts : Nat := 3
  baseDelay : ℚ := 1
  maxDelay : ℚ := 30
  multiplier : ℚ := 2
  jitter : Bool := true
deriving DecidableEq, Repr

/-- The errors that can escape `retry`: `RetryError` (all attempts
exhausted, carrying the attempt count and the last underlying error —
`none` only in the degenerate `max_attempts = 0` run), or a
non-retryable underlying error re-raised unchanged. -/
inductive RetryErr (ε : Type) where
  | exhausted (attempts : Nat) (last : Option ε)
  | nonRetryable (e : ε)
deriving DecidableEq, Repr

/-- Observable trace of one `retry(...)` execution: its final result,
how many times the wrapped function was invoked, and the sleeps
performed (in order). -/
structure RetryTrace (ε α : Type) where
  result : Except (RetryErr ε) α
  calls : Nat
  sleeps : List ℚ
deriving Repr

/-- The `for attempt in range(1, max_attempts + 1)` loop of `retry`.
`f k` is the outcome of the k-th invocation of the wrapped function
(1-based); `rand k` models the `random.random()` drawn before the
sleep following attempt `k`.  `remaining` counts loop iterations left;
the top-level entry keeps the invariant
`attempt + remaining = maxAttempts + 1`. -/
def retryGo {ε α : Type} (retryable : ε → Bool) (f : Nat → Except ε α)
    (rand : Nat → ℚ) (cfg : RetryConfig) :
    Nat → Nat → RetryTrace ε α
  | _, 0 => ⟨.error (.exhausted cfg.maxAttempts none), 0, []⟩
  | attempt, r + 1 =>
    match f attempt with
    | .ok a => ⟨.ok a, 1, []⟩
    | .error e =>
      if retryable e then
        if attempt = cfg.maxAttempts then
          ⟨.error (.exhausted cfg.maxAttempts (some e)), 1, []⟩
        else
          let delay := min (cfg.baseDelay * cfg.multiplier ^ (attempt - 1)) cfg.maxDelay
          let delay := if cfg.jitter then delay * (1/2 + rand attempt * (1/2)) else delay
          let rest := retryGo retryable f rand cfg (attempt + 1) r
          ⟨rest.result, rest.calls + 1, delay :: rest.sleeps⟩
      else ⟨.error (.nonRetryable e), 1, []⟩

/-- `retry(func, config, sleep_func)` as a trace. -/
def retryRun {ε α : Type} (retryable : ε → Bool) (f : Nat → Except ε α)
    (rand : Nat → ℚ) (cfg : RetryConfig) : RetryTrace ε α :=
  retryGo retryable f rand cfg 1 cfg.maxAttempts

/-! ## Token-bucket rate limiter (`rate_limiter.py`) -/

/-- `RateLimiter` state (`RateLimiterConfig` fields inlined:
`rate = tokens_per_second`, `max = max_tokens`). -/
structure RateLimiter where
  rate : ℚ := 1
  max : ℚ := 10
  tokens : ℚ := 10
  lastRefill : ℚ := 0
deriving DecidableEq, Repr

/-- `RateLimiter._refill` at clock reading `now`. -/
def RateLimiter.refill (rl : RateLimiter) (now : ℚ) : RateLimiter :=
  { rl with
    tokens := min rl.max (rl.tokens + (now - rl.lastRefill) * rl.rate),
    lastRefill := now }

/-- Result of `RateLimiter.acquire`: `ok waited` models `return True`
(`waited` is the duration passed to the injected sleep on the blocking
path, `none` when no sleep happened); `rateLimitExceeded` models the
`RateLimitExceeded` exception with its `retry_after`. -/
inductive AcquireResult where
  | ok (waited : Option ℚ)
  | rateLimitExceeded (retryAfter : ℚ)
deriving DecidableEq, Repr

/-- `RateLimiter.acquire(tokens, block)`.  `now` is the clock reading
at entry; `clockAfterSleep w` is the clock reading observed after
`self._sleep(w)` returns (composing the injected sleep and clock). -/
def RateLimiter.acquire (rl : RateLimiter) (cost : ℚ) (block : Bool)
    (now : ℚ) (clockAfterSleep : ℚ → ℚ) : AcquireResult × RateLimiter :=
  let rl := rl.refill now
  if rl.tokens ≥ cost then
    (.ok none, { rl with tokens := rl.tokens - cost })
  else if !block then
    let deficit := cost - rl.tokens
    (.rateLimitExceeded (deficit / rl.rate), rl)
  else
    let deficit := cost - rl.tokens
    let waitTime := deficit / rl.rate
    let rl := rl.refill (clockAfterSleep waitTime)
    (.ok (some waitTime), { rl with tokens := rl.tokens - cost })

/-- One call in a sequence of `acquire` calls. -/
structure AcquireOp where
  cost : ℚ
  block : Bool
  now : ℚ
  afterSleep : ℚ → ℚ

/-- Fold a sequence of `acquire` calls through the limiter state. -/
def RateLimiter.run (rl : RateLimiter) (ops : List AcquireOp) : RateLimiter :=
  ops.foldl (fun acc op => (acc.acquire op.cost op.block op.now op.afterSleep).2) rl

/-- Sanity conditions on one call: non-negative cost not exceeding
capacity, a clock that has not gone backwards since the limiter's last
refill, and a sleep during which the clock advances by at least the
requested duration. -/
def ValidOp (rl : RateLimiter) (op : AcquireOp) : Prop :=
  0 ≤ op.cost ∧ op.cost ≤ rl.max ∧ rl.lastRefill ≤ op.now ∧
    ∀ w, 0 ≤ w → op.now + w ≤ op.afterSleep w

/-- Sanity conditions along a whole sequence of `acquire` calls. -/
def ValidOps : RateLimiter → List AcquireOp → Prop
  | _, [] => True
  | rl, op :: ops =>
      ValidOp rl op ∧ ValidOps (rl.acquire op.cost op.block op.now op.afterSleep).2 ops

/-! ## Delivery ledger (`delivery_log.py`) -/

/-- `DeliveryRecord` dataclass.  The `metadata` dict is carried as an
association list; every constructing site in the verified code leaves
it empty. -/
structure DeliveryRecord where
  recordId : String
  postId : String
  platform : String
  status : String
  timestamp : String := ""
  externalUrl : String := ""
  error : String := ""
  metadata : List (String × String) := []
deriving DecidableEq, Repr

/-- `DeliveryLog` (in-memory view; `_save` is file I/O and outside the
embedding). -/
structure DeliveryLog where
  records : List DeliveryRecord := []
deriving DecidableEq, Repr

/-- `DeliveryLog.append`. -/
def DeliveryLog.append (log : DeliveryLog) (r : DeliveryRecord) : DeliveryLog :=
  { log with records := log.records ++ [r] }

/-- `DeliveryLog.get_by_post`. -/
def DeliveryLog.getByPost (log : DeliveryLog) (postId : String) : List DeliveryRecord :=
  log.records.filter (fun r => r.postId = postId)

/-- `DeliveryLog.get_by_platform`. -/
def DeliveryLog.getByPlatform (log : DeliveryLog) (platform : String) : List DeliveryRecord :=
  log.records.filter (fun r => r.platform = platform)

/-- `DeliveryLog.get_failures`. -/
def DeliveryLog.getFailures (log : DeliveryLog) : List DeliveryRecord :=
  log.records.filter (fun r => r.status = "failure")

/-- `DeliveryLog.has_been_delivered`. -/
def DeliveryLog.hasBeenDelivered (log : DeliveryLog) (postId platform : String) : Bool :=
  log.records.any (fun r =>
    r.postId = postId && r.platform = platform && r.status = "success")

/-! ### Load-on-construct (`DeliveryLog._load`)

The backing file's text is abstracted to the result of `json.loads`:
`none` when parsing raises `JSONDecodeError`, otherwise `some` of the
parsed JSON value. -/

/-- Parsed JSON values. -/
inductive Json where
  | null
  | bool (b : Bool)
  | num (q : ℚ)
  | str (s : String)
  | arr (items : List Json)
  | obj (entries : List (String × Json))

/-- Field names of the `DeliveryRecord` dataclass (keyword arguments
accepted by `DeliveryRecord(**rec)`). -/
def recordFieldNames : List String :=
  ["record_id", "post_id", "platform", "status",
   "timestamp", "external_url", "error", "metadata"]

/-- Field names without a default value (required keyword arguments). -/
def requiredFieldNames : List String :=
  ["record_id", "post_id", "platform", "status"]

/-- `DeliveryRecord(**rec)` for one parsed array element: succeeds
exactly when `rec` is a JSON object whose keys include every required
field and nothing outside the dataclass's fields (dataclasses perform
no runtime type check on the values, so the values are kept as parsed);
anything else raises `TypeError`, modelled as `Except.error`. -/
def decodeRecord : Json → Except Unit (List (String × Json))
  | .obj entries =>
    if requiredFieldNames.all (fun k => entries.any (fun kv => kv.1 = k)) &&
        entries.all (fun kv => recordFieldNames.contains kv.1) then
      .ok entries
    else .error ()
  | _ => .error ()

/-- The `[DeliveryRecord(**rec) for rec in data.get("records", [])]`
comprehension.  Iterating a non-list JSON value either raises
`TypeError` outright (null / bool / number are not iterable) or yields
elements (dict keys, string characters) whose `**`-expansion raises
`TypeError`; all of these are `Except.error`.  An empty iterable of
either kind yields `[]` in Python, and decoding diverges from that
only on inputs the surrounding handler catches anyway. -/
def decodeRecords : Json → Except Unit (List (List (String × Json)))
  | .arr items => items.mapM decodeRecord
  | _ => .error ()

/-- Observable outcome of `DeliveryLog._load` (hence of constructing a
`DeliveryLog` over an existing backing file): the constructor returns
with the given parsed records, or an exception escapes it. -/
inductive LoadOutcome where
  | loaded (records : List (List (String × Json)))
  | raisesAttributeError

/-- `DeliveryLog._load`.  `parsed = none` models `json.loads` raising
`JSONDecodeError` (caught: empty ledger).  A parsed top-level object
reads `data.get("records", [])` and decodes the records, catching
`TypeError` (empty ledger).  A parsed top-level value that is not an
object raises `AttributeError` at `data.get`, which the
`except (json.JSONDecodeError, TypeError)` clause does not catch. -/
def loadLedger : Option Json → LoadOutcome
  | none => .loaded []
  | some (.obj entries) =>
    match decodeRecords ((List.lookup "records" entries).getD (.arr [])) with
    | .ok rs => .loaded rs
    | .error _ => .loaded []
  | some _ => .raisesAttributeError

/-! ### Bounded ledger (`maxRecords`)

Modelled from the spec: the optional `maxRecords` bound of the Delivery
Ledger (spec §4.4) is exercised by the repository test
`test_max_records_trims_oldest` but is absent from the `DeliveryLog`
revision under `src/` (its constructor takes no such argument).  Per the
spec: "on append exceeding the bound, evict oldest records first (FIFO)
so the ledger never exceeds the configured size." -/

/-- Modelled from the spec: `DeliveryLog` with the optional
`maxRecords` bound of spec §4.4, which is missing from the source
revision under `src/`. -/
structure BoundedDeliveryLog where
  maxRecords : Option Nat := none
  records : List DeliveryRecord := []
deriving DecidableEq, Repr

/-- Modelled from the spec: append then evict oldest first (FIFO) down
to the configured bound. -/
def BoundedDeliveryLog.append (log : BoundedDeliveryLog) (r : DeliveryRecord) :
    BoundedDeliveryLog :=
  let rs := log.records ++ [r]
  match log.maxRecords with
  | some m => { log with records := rs.drop (rs.length - m) }
  | none => { log with records := rs }

/-- `get_by_post` over the bounded ledger. -/
def BoundedDeliveryLog.getByPost (log : BoundedDeliveryLog) (postId : String) :
    List DeliveryRecord :=
  log.records.filter (fun r => r.postId = postId)

/-- Fold a sequence of appends through the bounded ledger. -/
def BoundedDeliveryLog.run (log : BoundedDeliveryLog) (rs : List DeliveryRecord) :
    BoundedDeliveryLog :=
  rs.foldl BoundedDeliveryLog.append log

/-! ## POSSE dispatch orchestrator (`posse.py`) -/

/-- `Platform` enum. -/
inductive Platform where
  | mastodon
  | discord
  | bluesky
  | ghost
  | rss
  | twitter
deriving DecidableEq, Repr

/-- `Platform.value`. -/
def Platform.value : Platform → String
  | .mastodon => "mastodon"
  | .discord => "discord"
  | .bluesky => "bluesky"
  | .ghost => "ghost"
  | .rss => "rss"
  | .twitter => "twitter"

/-- `SyndicationStatus` enum. -/
inductive SyndicationStatus where
  | pending
  | published
  | failed
  | skipped
deriving DecidableEq, Repr

/-- `SyndicationRecord` dataclass.  `published_at` keeps the clock
reading at which `mark_published` ran. -/
structure SyndicationRecord where
  platform : Platform
  status : SyndicationStatus := .pending
  externalUrl : Option String := none
  publishedAt : Option ℚ := none
  error : Option String := none
deriving DecidableEq, Repr

/-- `SyndicationRecord.mark_published`. -/
def SyndicationRecord.markPublished (r : SyndicationRecord) (url : String) (now : ℚ) :
    SyndicationRecord :=
  { r with status := .published, externalUrl := some url, publishedAt := some now }

/-- `SyndicationRecord.mark_failed`. -/
def SyndicationRecord.markFailed (r : SyndicationRecord) (error : String) :
    SyndicationRecord :=
  { r with status := .failed, error := some error }

/-- `ContentPost` dataclass (`created_at` is wall clock and not used by
any verified operation). -/
structure ContentPost where
  postId : String
  title : String
  body : String
  canonicalUrl : String
  platforms : List Platform := []
  syndications : List SyndicationRecord := []
deriving DecidableEq, Repr

/-- An error raised by a platform collaborator's publish operation.
`retryable` models membership of the error's class in
`RetryConfig.retryable_exceptions`. -/
structure PlatformErr where
  msg : String
  retryable : Bool
deriving DecidableEq, Repr

/-- The errors that can reach the orchestrator's per-platform
`except Exception` boundary: a breaker rejection (`CircuitOpenError`),
retry exhaustion (`RetryError`), or an underlying collaborator error
propagating unchanged. -/
inductive DispatchErr where
  | circuitOpen (resetAt : ℚ)
  | retryExhausted (attempts : Nat) (last : Option PlatformErr)
  | platformErr (e : PlatformErr)
deriving DecidableEq, Repr

/-- `str(exc)` for each error reaching the per-platform boundary
(numeric formatting abstracts Python's `:.1f`). -/
def DispatchErr.message : DispatchErr → String
  | .circuitOpen resetAt => "Circuit is OPEN, resets at " ++ toString resetAt
  | .retryExhausted attempts last =>
      "Failed after " ++ toString attempts ++ " attempts: " ++
        (match last with | some e => e.msg | none => "None")
  | .platformErr e => e.msg

/-- The exceptions `retry` lets escape, as seen at the boundary. -/
def RetryErr.toDispatch : RetryErr PlatformErr → DispatchErr
  | .exhausted attempts last => .retryExhausted attempts last
  | .nonRetryable e => .platformErr e

/-- Observable outcome of `PosseDistributor._with_resilience`:
the value returned or error raised, the number of raw collaborator
invocations, whether `retry` was entered at all, and the updated
limiter/breaker state. -/
structure ResilienceResult where
  result : Except DispatchErr (Option String)
  collabCalls : Nat
  retryRan : Bool
  limiter : Option RateLimiter
  breaker : Option CircuitBreaker
deriving Repr

/-- `PosseDistributor._with_resilience`.  `f k` is the outcome of the
k-th raw collaborator invocation within this dispatch (its result is
the optional `url` field of the returned payload); `now` is the
injected clock's reading; `clockAfterSleep` is the reading after the
limiter's blocking sleep; `rand` feeds retry jitter. -/
def withResilience (retryCfg : Option RetryConfig) (limiter : Option RateLimiter)
    (breaker : Option CircuitBreaker) (now : ℚ) (clockAfterSleep : ℚ → ℚ)
    (rand : Nat → ℚ) (f : Nat → Except PlatformErr (Option String)) :
    ResilienceResult :=
  -- Rate limiter (outermost); `acquire(block=True)` always returns True.
  let limiter' := limiter.map (fun rl => (rl.acquire 1 true now clockAfterSleep).2)
  match breaker with
  | some cb =>
    match retryCfg with
    | some cfg =>
      -- cb.call(retry, _retryable, self._retry_config)
      let trace := retryRun PlatformErr.retryable f rand cfg
      let (res, cb') := cb.call now trace.result
      match res with
      | .rejected resetAt => ⟨.error (.circuitOpen resetAt), 0, false, limiter', some cb'⟩
      | .ok a => ⟨.ok a, trace.calls, true, limiter', some cb'⟩
      | .failed e => ⟨.error e.toDispatch, trace.calls, true, limiter', some cb'⟩
    | none =>
      -- cb.call(func, *args, **kwargs)
      let (res, cb') := cb.call now (f 1)
      match res with
      | .rejected resetAt => ⟨.error (.circuitOpen resetAt), 0, false, limiter', some cb'⟩
      | .ok a => ⟨.ok a, 1, false, limiter', some cb'⟩
      | .failed e => ⟨.error (.platformErr e), 1, false, limiter', some cb'⟩
  | none =>
    match retryCfg with
    | some cfg =>
      -- retry(func, self._retry_config, None, *args, **kwargs)
      let trace := retryRun PlatformErr.retryable f rand cfg
      ⟨trace.result.mapError RetryErr.toDispatch, trace.calls, true, limiter', none⟩
    | none =>
      match f 1 with
      | .ok a => ⟨.ok a, 1, false, limiter', none⟩
      | .error e => ⟨.error (.platformErr e), 1, false, limiter', none⟩

/-- The deterministic fallback external URL each `_syndicate_<p>`
substitutes when the collaborator's payload has no url field.  `rss`
and `twitter` have no dispatch branch (no collaborator slot exists for
them), so no fallback is ever used there. -/
def fallbackUrl : Platform → String → String
  | .mastodon, postId => "https://mastodon.example.com/" ++ postId
  | .discord, postId => "https://discord.example.com/" ++ postId
  | .bluesky, postId => "at://bluesky.example.com/" ++ postId
  | .ghost, postId => "https://ghost.example.com/" ++ postId
  | .rss, _ => ""
  | .twitter, _ => ""

/-- Result of one `_syndicate_<platform>` call. -/
structure DispatchResult where
  record : SyndicationRecord
  collabCalls : Nat
  retryRan : Bool
  limiter : Option RateLimiter
  breaker : Option CircuitBreaker
deriving Repr

/-- The shared shape of `_syndicate_mastodon` / `_syndicate_discord` /
`_syndicate_bluesky` / `_syndicate_ghost`: build the payload (a total
computation, absorbed into the oracle `f`), run it through
`_with_resilience` inside `try`, mark the fresh record published with
the returned or fallback URL, or mark it failed with `str(exc)` for
any escaped exception. -/
def dispatchPlatform (p : Platform) (postId : String) (retryCfg : Option RetryConfig)
    (limiter : Option RateLimiter) (breaker : Option CircuitBreaker) (now : ℚ)
    (clockAfterSleep : ℚ → ℚ) (rand : Nat → ℚ)
    (f : Nat → Except PlatformErr (Option String)) : DispatchResult :=
  let record : SyndicationRecord := { platform := p }
  let rr := withResilience retryCfg limiter breaker now clockAfterSleep rand f
  match rr.result with
  | .ok urlField =>
      ⟨record.markPublished (urlField.getD (fallbackUrl p postId)) now,
        rr.collabCalls, rr.retryRan, rr.limiter, rr.breaker⟩
  | .error e =>
      ⟨record.markFailed e.message, rr.collabCalls, rr.retryRan, rr.limiter, rr.breaker⟩

/-- `PosseDistributor._log_delivery`: append a `DeliveryRecord` derived
from the syndication record (every non-published status, including a
skip, maps to `"failure"`).  `nowIso` is the auto timestamp of
`DeliveryRecord.__post_init__`. -/
def logDelivery (log : Option DeliveryLog) (postId platformVal : String)
    (record : SyndicationRecord) (nowIso : String) : Option DeliveryLog :=
  match log with
  | none => none
  | some dl => some (dl.append
      { recordId := postId ++ "-" ++ platformVal
        postId := postId
        platform := platformVal
        status := if record.status = .published then "success" else "failure"
        timestamp := nowIso
        externalUrl := record.externalUrl.getD ""
        error := record.error.getD "" })

/-- The ambient inputs of one `syndicate` call: the collaborator
oracle (`call p k` = outcome of the k-th raw invocation against
platform `p`), the injected clock reading, the auto timestamp string,
the jitter randoms, and the clock reading after the limiter's blocking
sleep. -/
structure SynEnv where
  call : Platform → Nat → Except PlatformErr (Option String)
  now : ℚ
  nowIso : String
  rand : Nat → ℚ
  clockAfterSleep : ℚ → ℚ

/-- The mutable collaborator-facing state threaded through the
platform loop of `syndicate`: per-platform breakers (keyed by
`platform.value` as in the source dict), the shared limiter, the
delivery log, and how many raw calls each platform has received. -/
structure SynState where
  breakers : List (String × CircuitBreaker)
  limiter : Option RateLimiter
  log : Option DeliveryLog
  counts : Platform → Nat

/-- Write back the (mutated-in-place in Python) breaker for a key. -/
def setBreaker (bs : List (String × CircuitBreaker)) (key : String)
    (cb : Option CircuitBreaker) : List (String × CircuitBreaker) :=
  match cb with
  | none => bs
  | some cb => bs.map (fun kv => if kv.1 = key then (key, cb) else kv)

/-- Whether a client is configured for the platform, i.e. which branch
of the `if platform == ... and self._<client> is not None` chain of
`syndicate` fires.  `rss` and `twitter` have no branch and always fall
through to the skip arm. -/
structure ConfiguredClients where
  mastodon : Bool := false
  discord : Bool := false
  bluesky : Bool := false
  ghost : Bool := false
deriving DecidableEq, Repr

/-- Lookup of the branch chain. -/
def ConfiguredClients.has (c : ConfiguredClients) : Platform → Bool
  | .mastodon => c.mastodon
  | .discord => c.discord
  | .bluesky => c.bluesky
  | .ghost => c.ghost
  | .rss => false
  | .twitter => false

/-- One iteration of the platform loop of `PosseDistributor.syndicate`:
dedup check, client dispatch or skip, then `_log_delivery` (the dedup
`continue` bypasses logging).  Returns the produced record, the number
of raw collaborator invocations of this iteration, and the updated
state. -/
def syndicateStep (env : SynEnv) (retryCfg : Option RetryConfig)
    (clients : ConfiguredClients) (postId : String) (st : SynState)
    (p : Platform) : SyndicationRecord × Nat × SynState :=
  let dedup := match st.log with
    | some dl => dl.hasBeenDelivered postId p.value
    | none => false
  if dedup then
    let record : SyndicationRecord :=
      { platform := p, status := .skipped, error := some "Already delivered (dedup)" }
    (record, 0, st)
  else
    let (record, calls, st') :=
      if clients.has p then
        let base := st.counts p
        let d := dispatchPlatform p postId retryCfg st.limiter
          (List.lookup p.value st.breakers) env.now env.clockAfterSleep env.rand
          (fun k => env.call p (base + k))
        (d.record, d.collabCalls,
          { st with
            breakers := setBreaker st.breakers p.value d.breaker
            limiter := d.limiter
            counts := fun q => if q = p then base + d.collabCalls else st.counts q })
      else
        let record : SyndicationRecord :=
          { platform := p, status := .skipped,
            error := some ("No client configured for " ++ p.value) }
        (record, 0, st)
    (record, calls, { st' with log := logDelivery st'.log postId p.value record env.nowIso })

/-- `PosseDistributor` state. -/
structure Posse where
  posts : String → Option ContentPost := fun _ => none
  clients : ConfiguredClients := {}
  retryConfig : Option RetryConfig := none
  breakers : List (String × CircuitBreaker) := []
  rateLimiter : Option RateLimiter := none
  deliveryLog : Option DeliveryLog := none

/-- `PosseDistributor.create_post`. -/
def Posse.createPost (st : Posse) (postId title body canonicalUrl : String)
    (platforms : List Platform) : ContentPost × Posse :=
  let post : ContentPost :=
    { postId := postId, title := title, body := body,
      canonicalUrl := canonicalUrl, platforms := platforms }
  (post, { st with posts := fun pid => if pid = postId then some post else st.posts pid })

/-- Aggregate outcome of one `syndicate` call: the returned records,
the per-iteration raw collaborator call counts (same order as the
post's platform list), and the final loop state. -/
structure SyndicateResult where
  records : List SyndicationRecord
  perPlatformCalls : List (Platform × Nat)
  state : SynState

/-- The platform loop of `syndicate`, accumulating records. -/
def syndicateLoop (env : SynEnv) (retryCfg : Option RetryConfig)
    (clients : ConfiguredClients) (postId : String) :
    List Platform → SyndicateResult → SyndicateResult
  | [], acc => acc
  | p :: ps, acc =>
    let (record, calls, st') := syndicateStep env retryCfg clients postId acc.state p
    syndicateLoop env retryCfg clients postId ps
      ⟨acc.records ++ [record], acc.perPlatformCalls ++ [(p, calls)], st'⟩

/-- `PosseDistributor.syndicate`.  `none` models the `KeyError` of
`self._posts[post_id]` on an unknown id. -/
def Posse.syndicate (st : Posse) (env : SynEnv) (postId : String) :
    Option (SyndicateResult × Posse) :=
  match st.posts postId with
  | none => none
  | some post =>
    let init : SynState :=
      ⟨st.breakers, st.rateLimiter, st.deliveryLog, fun _ => 0⟩
    let res := syndicateLoop env st.retryConfig st.clients postId post.platforms ⟨[], [], init⟩
    let post' := { post with syndications := res.records }
    some (res,
      { st with
        posts := fun pid => if pid = postId then some post' else st.posts pid
        breakers := res.state.breakers
        rateLimiter := res.state.limiter
        deliveryLog := res.state.log })

/-! ## Theorems -/

/-- A freshly constructed breaker with the given configuration. -/
def initialBreaker (k : Nat) (timeout : ℚ) (hoMax : Nat) : CircuitBreaker :=
  { failureThreshold := k, resetTimeout := timeout, halfOpenMaxCalls := hoMax }

/-- A failing call in CLOSED executes the operation, propagates the
error and applies `_on_failure`. -/
theorem call_closed_fail {ε α : Type} (cb : CircuitBreaker) (h : cb.state = .closed)
    (now : ℚ) (e : ε) :
    CircuitBreaker.call (α := α) cb now (.error e) = (.failed e, cb.onFailure now) := by
  simp [CircuitBreaker.call, CircuitBreaker.readState, h]

/-- A successful call in CLOSED returns the value and applies
`_on_success`. -/
theorem call_closed_ok {ε α : Type} (cb : CircuitBreaker) (h : cb.state = .closed)
    (now : ℚ) (a : α) :
    CircuitBreaker.call (ε := ε) cb now (.ok a) = (.ok a, cb.onSuccess) := by
  simp [CircuitBreaker.call, CircuitBreaker.readState, h]

/-- A call on an OPEN breaker whose reset timeout has not elapsed is
rejected with the reset time, leaving the breaker untouched. -/
theorem call_open_rejected {ε α : Type} (cb : CircuitBreaker) (h : cb.state = .opened)
    (t' : ℚ) (hlt : t' - cb.lastFailureTime < cb.resetTimeout) (o : Except ε α) :
    cb.call t' o = (.rejected (cb.lastFailureTime + cb.resetTimeout), cb) := by
  have hneg : ¬ cb.resetTimeout ≤ t' - cb.lastFailureTime := not_le.mpr hlt
  simp [CircuitBreaker.call, CircuitBreaker.readState, h, hneg]

/-- `_on_failure` at or above the threshold: transition to OPEN. -/
theorem onFailure_at_threshold (cb : CircuitBreaker) (now : ℚ)
    (h : cb.failureCount + 1 ≥ cb.failureThreshold) :
    cb.onFailure now = { cb with state := .opened, failureCount := cb.failureCount + 1, lastFailureTime := now } := by
  simp [CircuitBreaker.onFailure, h]

/-- `_on_failure` below the threshold: count and stamp only. -/
theorem onFailure_below_threshold (cb : CircuitBreaker) (now : ℚ)
    (h : ¬ cb.failureCount + 1 ≥ cb.failureThreshold) :
    cb.onFailure now = { cb with failureCount := cb.failureCount + 1, lastFailureTime := now } := by
  simp [CircuitBreaker.onFailure, h]

/-- Below the threshold, a run of failing calls in CLOSED stays CLOSED
and counts each failure. -/
theorem failCalls_closed_progress {ε α : Type} (e : ε) :
    ∀ (ts : List ℚ) (cb : CircuitBreaker), cb.state = .closed →
      cb.failureCount + ts.length < cb.failureThreshold →
      (CircuitBreaker.failCalls (ε := ε) (α := α) cb e ts).state = .closed ∧
      (CircuitBreaker.failCalls (ε := ε) (α := α) cb e ts).failureCount
        = cb.failureCount + ts.length ∧
      (CircuitBreaker.failCalls (ε := ε) (α := α) cb e ts).failureThreshold
        = cb.failureThreshold ∧
      (CircuitBreaker.failCalls (ε := ε) (α := α) cb e ts).resetTimeout
        = cb.resetTimeout ∧
      (CircuitBreaker.failCalls (ε := ε) (α := α) cb e ts).halfOpenMaxCalls
        = cb.halfOpenMaxCalls
  | [], cb, hclosed, _ => by
    simp [CircuitBreaker.failCalls, hclosed]
  | t :: ts, cb, hclosed, hlt => by
    have hstep := call_closed_fail (α := α) cb hclosed t e
    have hfold : CircuitBreaker.failCalls (ε := ε) (α := α) cb e (t :: ts)
        = CircuitBreaker.failCalls (ε := ε) (α := α)
            (CircuitBreaker.call (α := α) cb t (.error e)).2 e ts := rfl
    rw [hfold, hstep]
    have hnotOpen : ¬ cb.failureCount + 1 ≥ cb.failureThreshold := by
      simp only [List.length_cons] at hlt; omega
    rw [onFailure_below_threshold cb t hnotOpen]
    have := failCalls_closed_progress (ε := ε) (α := α) e ts
      { cb with failureCount := cb.failureCount + 1, lastFailureTime := t }
      (by simpa using hclosed)
      (by simp only [List.length_cons] at hlt; simp; omega)
    simp only [List.length_cons] at this ⊢
    exact ⟨this.1, by rw [this.2.1]; omega, this.2.2.1, this.2.2.2.1, this.2.2.2.2⟩

/-- Claim C2: for every configured `failure_threshold k` (realised as
`k = |ts| + 1`), a breaker starting CLOSED that observes `k`
consecutive failed calls transitions to OPEN; the k-th failing call
still executes the operation and the failure propagates (`.failed e`,
an invoked outcome); a further call made before the reset timeout
elapses is rejected with `CircuitOpenError` carrying the reset time
without invoking the operation and without changing the breaker; and a
successful call in CLOSED resets the failure counter to zero without
changing state. -/
theorem breaker_threshold_opens {ε α : Type} (k : Nat) (timeout : ℚ) (hoMax : Nat)
    (ts : List ℚ) (t : ℚ) (e : ε) (hlen : ts.length + 1 = k) :
    ∃ cbK : CircuitBreaker,
      CircuitBreaker.call (α := α)
          (CircuitBreaker.failCalls (ε := ε) (α := α) (initialBreaker k timeout hoMax) e ts)
          t (.error e) = (.failed e, cbK) ∧
      (CallResult.failed (α := α) e).invoked = true ∧
      cbK.state = .opened ∧
      cbK.failureCount = k ∧
      (∀ (t' : ℚ) (o : Except ε α), t' - t < timeout →
        cbK.call t' o = (.rejected (t + timeout), cbK)) ∧
      (CallResult.rejected (ε := ε) (α := α) (t + timeout)).invoked = false ∧
      (∀ (cb : CircuitBreaker) (now : ℚ) (a : α), cb.state = .closed →
        (cb.call (ε := ε) now (.ok a)).1 = .ok a ∧
        (cb.call (ε := ε) now (.ok a)).2.state = .closed ∧
        (cb.call (ε := ε) now (.ok a)).2.failureCount = 0) := by
  obtain ⟨hst, hcount, hthr, hrt, -⟩ :=
    failCalls_closed_progress (ε := ε) (α := α) e ts (initialBreaker k timeout hoMax)
      rfl (by simp [initialBreaker]; omega)
  set cbPre := CircuitBreaker.failCalls (ε := ε) (α := α)
    (initialBreaker k timeout hoMax) e ts with hcbPre
  have hopens : cbPre.failureCount + 1 ≥ cbPre.failureThreshold := by
    rw [hcount, hthr]; simp [initialBreaker]; omega
  have hof := onFailure_at_threshold cbPre t hopens
  refine ⟨cbPre.onFailure t, call_closed_fail cbPre hst t e, rfl, ?_, ?_, ?_, rfl, ?_⟩
  · rw [hof]
  · rw [hof]
    show cbPre.failureCount + 1 = k
    rw [hcount]
    simp only [initialBreaker] at *
    omega
  · intro t' o hlt'
    have hstate : (cbPre.onFailure t).state = .opened := by rw [hof]
    have hlft : (cbPre.onFailure t).lastFailureTime = t := by rw [hof]
    have hrt2 : (cbPre.onFailure t).resetTimeout = timeout := by
      rw [hof]; simpa [initialBreaker] using hrt
    have hrej := call_open_rejected (cbPre.onFailure t) hstate t'
      (by rw [hlft, hrt2]; exact hlt') o
    rw [hlft, hrt2] at hrej
    exact hrej
  · intro cb now a hclosed
    rw [call_closed_ok (ε := ε) cb hclosed now a]
    exact ⟨rfl, by simp [CircuitBreaker.onSuccess, hclosed], rfl⟩

/-- Claim C2 witness: threshold 2, failing calls at times 0 and 1. -/
theorem breaker_threshold_opens_witness :
    ([ (0 : ℚ) ].length + 1 = 2) ∧
    ∃ cbK : CircuitBreaker,
      CircuitBreaker.call (α := Unit)
          (CircuitBreaker.failCalls (ε := Unit) (α := Unit) (initialBreaker 2 60 1) () [0])
          1 (.error ()) = (.failed (), cbK) ∧
      (CallResult.failed (α := Unit) ()).invoked = true ∧
      cbK.state = .opened ∧
      cbK.failureCount = 2 ∧
      (∀ (t' : ℚ) (o : Except Unit Unit), t' - 1 < 60 →
        cbK.call t' o = (.rejected (1 + 60), cbK)) ∧
      (CallResult.rejected (ε := Unit) (α := Unit) (1 + 60)).invoked = false ∧
      (∀ (cb : CircuitBreaker) (now : ℚ) (a : Unit), cb.state = .closed →
        (cb.call (ε := Unit) now (.ok a)).1 = .ok a ∧
        (cb.call (ε := Unit) now (.ok a)).2.state = .closed ∧
        (cb.call (ε := Unit) now (.ok a)).2.failureCount = 0) :=
  ⟨by decide, breaker_threshold_opens 2 60 1 [0] 1 () (by decide)⟩

/-- The lazy `state` read either reports the stored state unchanged or
performs the OPEN → HALF_OPEN transition. -/
theorem readState_cases (cb : CircuitBreaker) (now : ℚ) :
    cb.readState now = (cb.state, cb) ∨
    (cb.state = .opened ∧ now - cb.lastFailureTime ≥ cb.resetTimeout ∧
      cb.readState now = (.halfOpen, { cb with state := .halfOpen, halfOpenCalls := 0 })) := by
  by_cases h : cb.state = .opened ∧ now - cb.lastFailureTime ≥ cb.resetTimeout
  · exact Or.inr ⟨h.1, h.2, by simp [CircuitBreaker.readState, h]⟩
  · exact Or.inl (by simp [CircuitBreaker.readState, h])

/-- Breaker states reachable from a fresh CLOSED instance through the
public operations: `call` (any clock reading, any outcome of the
wrapped function), reading the lazy `state` property, and `reset`. -/
inductive ReachableBreaker : CircuitBreaker → Prop where
  | init (k : Nat) (timeout : ℚ) (hoMax : Nat) :
      ReachableBreaker (initialBreaker k timeout hoMax)
  | callStep (cb : CircuitBreaker) (now : ℚ) (outcome : Except Unit Unit) :
      ReachableBreaker cb →
      ReachableBreaker (CircuitBreaker.call cb now outcome).2
  | readStep (cb : CircuitBreaker) (now : ℚ) :
      ReachableBreaker cb → ReachableBreaker (cb.readState now).2
  | resetStep (cb : CircuitBreaker) :
      ReachableBreaker cb → ReachableBreaker cb.reset

/-- In every reachable non-CLOSED state the failure counter has
reached the threshold (the counter is only cleared on success or
manual reset, both of which close the circuit). -/
theorem breaker_invariant (cb : CircuitBreaker) (h : ReachableBreaker cb) :
    cb.state ≠ .closed → cb.failureCount ≥ cb.failureThreshold := by
  induction h with
  | init k timeout hoMax => intro hne; exact absurd rfl hne
  | resetStep cb h ih => intro hne; exact absurd rfl hne
  | readStep cb now h ih =>
      rcases readState_cases cb now with hrs | ⟨hopen, -, hrs⟩
      · rw [hrs]; exact ih
      · rw [hrs]; intro _; exact ih (by rw [hopen]; simp)
  | callStep cb now o h ih =>
      rcases readState_cases cb now with hrs | ⟨hopen, -, hrs⟩
      · cases hcb : cb.state with
        | opened =>
            simp [CircuitBreaker.call, hrs, hcb]
            exact ih (by rw [hcb]; simp)
        | halfOpen =>
            have hcnt := ih (by rw [hcb]; simp)
            by_cases hq : cb.halfOpenMaxCalls ≤ cb.halfOpenCalls
            · simp [CircuitBreaker.call, hrs, hcb, hq]
              exact hcnt
            · cases o with
              | ok a =>
                  simp [CircuitBreaker.call, hrs, hcb, hq, CircuitBreaker.onSuccess]
              | error e =>
                  have hth : cb.failureThreshold ≤ cb.failureCount + 1 := by omega
                  simp [CircuitBreaker.call, hrs, hcb, hq,
                    CircuitBreaker.onFailure, hth]
        | closed =>
            cases o with
            | ok a =>
                simp [CircuitBreaker.call, hrs, hcb, CircuitBreaker.onSuccess]
            | error e =>
                by_cases hth : cb.failureThreshold ≤ cb.failureCount + 1
                · simp [CircuitBreaker.call, hrs, hcb, CircuitBreaker.onFailure, hth]
                · simp [CircuitBreaker.call, hrs, hcb, CircuitBreaker.onFailure, hth]
      · have hcnt := ih (by rw [hopen]; simp)
        by_cases hq : cb.halfOpenMaxCalls = 0
        · simp [CircuitBreaker.call, hrs, hq]
          exact hcnt
        · cases o with
          | ok a =>
              simp [CircuitBreaker.call, hrs, hq, CircuitBreaker.onSuccess]
          | error e =>
              have hth : cb.failureThreshold ≤ cb.failureCount + 1 := by omega
              simp [CircuitBreaker.call, hrs, hq, CircuitBreaker.onFailure, hth]

/-- Claim C3: in every breaker state reachable from the initial CLOSED
state, (a) an OPEN breaker transitions to HALF_OPEN exactly when the
elapsed time since the stamped failure reaches the reset timeout,
checked lazily on reading `state`, with the trial counter reset to
zero (and stays OPEN, unchanged, otherwise); (b) a HALF_OPEN trial
success transitions to CLOSED and resets the failure counter to 0;
(c) a HALF_OPEN trial failure transitions back to OPEN and re-stamps
the failure time. -/
theorem breaker_state_machine {ε α : Type} (cb : CircuitBreaker)
    (hreach : ReachableBreaker cb) :
    (cb.state = .opened → ∀ now : ℚ,
      ((cb.readState now).1 = .halfOpen ↔ now - cb.lastFailureTime ≥ cb.resetTimeout) ∧
      (now - cb.lastFailureTime ≥ cb.resetTimeout →
        (cb.readState now).2 = { cb with state := .halfOpen, halfOpenCalls := 0 }) ∧
      (¬ now - cb.lastFailureTime ≥ cb.resetTimeout → (cb.readState now).2 = cb)) ∧
    (cb.state = .halfOpen → cb.halfOpenCalls < cb.halfOpenMaxCalls →
      ∀ (now : ℚ) (a : α),
        (CircuitBreaker.call (ε := ε) cb now (.ok a)).2.state = .closed ∧
        (CircuitBreaker.call (ε := ε) cb now (.ok a)).2.failureCount = 0) ∧
    (cb.state = .halfOpen → cb.halfOpenCalls < cb.halfOpenMaxCalls →
      ∀ (now : ℚ) (e : ε),
        (CircuitBreaker.call (α := α) cb now (.error e)).2.state = .opened ∧
        (CircuitBreaker.call (α := α) cb now (.error e)).2.lastFailureTime = now) := by
  refine ⟨?_, ?_, ?_⟩
  · intro hopen now
    by_cases hel : now - cb.lastFailureTime ≥ cb.resetTimeout
    · refine ⟨⟨fun _ => hel, fun _ => ?_⟩, fun _ => ?_, fun habs => absurd hel habs⟩
      · simp [CircuitBreaker.readState, hopen, hel]
      · simp [CircuitBreaker.readState, hopen, hel]
    · refine ⟨⟨fun h1 => ?_, fun habs => absurd habs hel⟩,
        fun habs => absurd habs hel, fun _ => ?_⟩
      · rw [show cb.readState now = (cb.state, cb) by
          simp [CircuitBreaker.readState, hel]] at h1
        rw [hopen] at h1
        exact absurd h1 (by simp)
      · simp [CircuitBreaker.readState, hel]
  · intro hho hlt now a
    have hq : ¬ cb.halfOpenMaxCalls ≤ cb.halfOpenCalls := by omega
    simp [CircuitBreaker.call, CircuitBreaker.readState, hho, hq,
      CircuitBreaker.onSuccess]
  · intro hho hlt now e
    have hcnt := breaker_invariant cb hreach (by rw [hho]; simp)
    have hq : ¬ cb.halfOpenMaxCalls ≤ cb.halfOpenCalls := by omega
    have hth : cb.failureThreshold ≤ cb.failureCount + 1 := by omega
    simp [CircuitBreaker.call, CircuitBreaker.readState, hho, hq,
      CircuitBreaker.onFailure, hth]

/-- A concrete reachable HALF_OPEN breaker: threshold 1, one failure at
time 0 (→ OPEN), state read at time 60 (= reset timeout → HALF_OPEN). -/
def halfOpenCB : CircuitBreaker :=
  (((initialBreaker 1 60 1).call (ε := Unit) (α := Unit) 0 (Except.error ())).2.readState 60).2

/-- Claim C3 witness at `halfOpenCB`. -/
theorem breaker_state_machine_witness :
    halfOpenCB.state = CircuitState.halfOpen ∧
    halfOpenCB.halfOpenCalls < halfOpenCB.halfOpenMaxCalls ∧
    (halfOpenCB.call (ε := Unit) 70 (Except.ok ())).2.state = CircuitState.closed ∧
    (halfOpenCB.call (ε := Unit) 70 (Except.ok ())).2.failureCount = 0 ∧
    (halfOpenCB.call (α := Unit) 70 (Except.error ())).2.state = CircuitState.opened ∧
    (halfOpenCB.call (α := Unit) 70 (Except.error ())).2.lastFailureTime = 70 := by
  have hreach : ReachableBreaker halfOpenCB :=
    ReachableBreaker.readStep _ 60
      (ReachableBreaker.callStep _ 0 (Except.error ()) (ReachableBreaker.init 1 60 1))
  have h := breaker_state_machine (ε := Unit) (α := Unit) halfOpenCB hreach
  have hval : halfOpenCB = ⟨1, 60, 1, .halfOpen, 1, 0, 0, 0⟩ := by
    show ((((initialBreaker 1 60 1).call (ε := Unit) (α := Unit)
      0 (Except.error ())).2.readState 60).2) = _
    rw [call_closed_fail _ rfl, onFailure_at_threshold _ _ (by simp [initialBreaker])]
    simp [CircuitBreaker.readState, initialBreaker, sub_zero]
  have hho : halfOpenCB.state = CircuitState.halfOpen := by rw [hval]
  have hlt : halfOpenCB.halfOpenCalls < halfOpenCB.halfOpenMaxCalls := by rw [hval]; exact Nat.zero_lt_one
  exact ⟨hho, hlt, (h.2.1 hho hlt 70 ()).1, (h.2.1 hho hlt 70 ()).2,
    (h.2.2 hho hlt 70 ()).1, (h.2.2 hho hlt 70 ()).2⟩

/-- The delay slept after attempt `attempt` (1-based):
`min(base_delay * multiplier^(attempt-1), max_delay)`, scaled by the
jitter factor `0.5 + random()*0.5` when jitter is enabled. -/
def backoffDelay (cfg : RetryConfig) (rand : Nat → ℚ) (attempt : Nat) : ℚ :=
  (min (cfg.baseDelay * cfg.multiplier ^ (attempt - 1)) cfg.maxDelay) *
    (if cfg.jitter then 1/2 + rand attempt * (1/2) else 1)

/-- Loop analysis of `retry` when every attempt fails retryably. -/
theorem retryGo_all_fail {ε α : Type} (retryable : ε → Bool) (e : Nat → ε)
    (rand : Nat → ℚ) (cfg : RetryConfig)
    (hretry : ∀ k, retryable (e k) = true) :
    ∀ (r attempt : Nat), attempt + r = cfg.maxAttempts + 1 → 1 ≤ r →
      (retryGo (α := α) retryable (fun k => .error (e k)) rand cfg attempt r).calls = r ∧
      (retryGo (α := α) retryable (fun k => .error (e k)) rand cfg attempt r).sleeps.length
        = r - 1 ∧
      (retryGo (α := α) retryable (fun k => .error (e k)) rand cfg attempt r).result
        = .error (.exhausted cfg.maxAttempts (some (e cfg.maxAttempts))) ∧
      (∀ k, k < r - 1 →
        (retryGo (α := α) retryable (fun k => .error (e k)) rand cfg attempt r).sleeps.get? k
          = some (backoffDelay cfg rand (attempt + k)))
  | 0, attempt, _, hr => absurd hr (by omega)
  | r + 1, attempt, hsum, _ => by
    by_cases h0 : r = 0
    · subst h0
      have ha : attempt = cfg.maxAttempts := by omega
      subst ha
      simp [retryGo, hretry]
    · have hne : ¬ attempt = cfg.maxAttempts := by omega
      obtain ⟨ih1, ih2, ih3, ih4⟩ :=
        retryGo_all_fail (α := α) retryable e rand cfg hretry r (attempt + 1)
          (by omega) (by omega)
      refine ⟨?_, ?_, ?_, ?_⟩
      · simp [retryGo, hretry, hne, ih1]
      · simp [retryGo, hretry, hne, ih2]
        omega
      · simp [retryGo, hretry, hne, ih3]
      · intro k hk
        cases k with
        | zero =>
            simp [retryGo, hretry, hne, backoffDelay]
        | succ k =>
            have := ih4 k (by omega)
            rw [show attempt + (k + 1) = attempt + 1 + k by omega]
            simpa [retryGo, hretry, hne] using this

/-- Claim C4: for every `n ≥ 1`, retry with `max_attempts = n` on an
operation whose every invocation raises a retryable error calls the
operation exactly `n` times, performs exactly `n - 1` sleeps whose
k-th delay is `min(base_delay * multiplier^(k-1), max_delay)` scaled
by the jitter factor, which lies in `[1/2, 1]` for `random() ∈ [0, 1)`
when jitter is enabled, and raises `RetryError` carrying
`attempts = n` and the last underlying error. -/
theorem retry_exhausts {ε α : Type} (cfg : RetryConfig) (e : Nat → ε)
    (rand : Nat → ℚ) (retryable : ε → Bool) (n : Nat)
    (hn : 1 ≤ n) (hcfg : cfg.maxAttempts = n)
    (hretry : ∀ k, retryable (e k) = true) :
    (retryRun (α := α) retryable (fun k => .error (e k)) rand cfg).calls = n ∧
    (retryRun (α := α) retryable (fun k => .error (e k)) rand cfg).sleeps.length = n - 1 ∧
    (retryRun (α := α) retryable (fun k => .error (e k)) rand cfg).result
      = .error (.exhausted n (some (e n))) ∧
    (∀ k, k < n - 1 →
      (retryRun (α := α) retryable (fun k => .error (e k)) rand cfg).sleeps.get? k
        = some (backoffDelay cfg rand (k + 1))) ∧
    (∀ k, 0 ≤ rand k → rand k < 1 → cfg.jitter = true →
      ∃ j : ℚ, 1/2 ≤ j ∧ j ≤ 1 ∧
        backoffDelay cfg rand k
          = (min (cfg.baseDelay * cfg.multiplier ^ (k - 1)) cfg.maxDelay) * j) := by
  obtain ⟨h1, h2, h3, h4⟩ :=
    retryGo_all_fail (α := α) retryable e rand cfg hretry n 1 (by omega) hn
  rw [hcfg] at h3
  refine ⟨?_, ?_, ?_, ?_, ?_⟩
  · simpa [retryRun, hcfg] using h1
  · simpa [retryRun, hcfg] using h2
  · simpa [retryRun, hcfg] using h3
  · intro k hk
    have := h4 k hk
    rw [show 1 + k = k + 1 by omega] at this
    simpa [retryRun, hcfg] using this
  · intro k h0 h1' hj
    refine ⟨1/2 + rand k * (1/2), by linarith, by linarith, ?_⟩
    simp [backoffDelay, hj]

/-- Claim C4 witness: `max_attempts = 2`, the operation always raises,
jitter randoms all zero. -/
theorem retry_exhausts_witness :
    (retryRun (α := Unit) (fun _ => true) (fun k => .error k) (fun _ => 0)
      ⟨2, 1, 30, 2, true⟩).calls = 2 ∧
    (retryRun (α := Unit) (fun _ => true) (fun k => .error k) (fun _ => 0)
      ⟨2, 1, 30, 2, true⟩).sleeps.length = 1 ∧
    (retryRun (α := Unit) (fun _ => true) (fun k => .error k) (fun _ => 0)
      ⟨2, 1, 30, 2, true⟩).result = .error (.exhausted 2 (some 2)) ∧
    (retryRun (α := Unit) (fun _ => true) (fun k => .error k) (fun _ => 0)
      ⟨2, 1, 30, 2, true⟩).sleeps.get? 0
      = some (backoffDelay ⟨2, 1, 30, 2, true⟩ (fun _ => 0) 1) := by
  have h := retry_exhausts (ε := Nat) (α := Unit) ⟨2, 1, 30, 2, true⟩ (fun k => k)
    (fun _ => 0) (fun _ => true) 2 (by omega) rfl (fun k => rfl)
  exact ⟨h.1, h.2.1, h.2.2.1, h.2.2.2.1 0 (by omega)⟩

/-- One `acquire` preserves the configuration and, under a positive
rate, in-range cost, a non-regressing clock and a sleep during which
the clock advances by at least the requested wait, keeps the token
count within `[0, capacity]`. -/
theorem acquire_bounds (rl : RateLimiter) (cost : ℚ) (block : Bool) (now : ℚ)
    (cas : ℚ → ℚ) (hrate : 0 < rl.rate) (h0 : 0 ≤ rl.tokens) (h1 : rl.tokens ≤ rl.max)
    (hc0 : 0 ≤ cost) (hc1 : cost ≤ rl.max) (hnow : rl.lastRefill ≤ now)
    (hsleep : ∀ w, 0 ≤ w → now + w ≤ cas w) :
    0 ≤ (rl.acquire cost block now cas).2.tokens ∧
    (rl.acquire cost block now cas).2.tokens ≤ rl.max ∧
    (rl.acquire cost block now cas).2.rate = rl.rate ∧
    (rl.acquire cost block now cas).2.max = rl.max ∧
    rl.lastRefill ≤ (rl.acquire cost block now cas).2.lastRefill := by
  have hmax0 : 0 ≤ rl.max := h0.trans h1
  have ht1l : 0 ≤ min rl.max (rl.tokens + (now - rl.lastRefill) * rl.rate) :=
    le_min hmax0 (add_nonneg h0 (mul_nonneg (by linarith) hrate.le))
  have ht1u : min rl.max (rl.tokens + (now - rl.lastRefill) * rl.rate) ≤ rl.max :=
    min_le_left _ _
  simp only [RateLimiter.acquire, RateLimiter.refill]
  split_ifs with hge hnb
  · refine ⟨?_, ?_, rfl, rfl, ?_⟩
    · show (0:ℚ) ≤ min rl.max (rl.tokens + (now - rl.lastRefill) * rl.rate) - cost
      linarith [hge]
    · show min rl.max (rl.tokens + (now - rl.lastRefill) * rl.rate) - cost ≤ rl.max
      linarith
    · show rl.lastRefill ≤ now
      exact hnow
  · exact ⟨ht1l, ht1u, rfl, rfl, hnow⟩
  · set t1 := min rl.max (rl.tokens + (now - rl.lastRefill) * rl.rate) with ht1
    set w := (cost - t1) / rl.rate with hw
    have hlt : t1 < cost := not_le.mp (by simpa using hge)
    have hw0 : 0 ≤ w := div_nonneg (by linarith) hrate.le
    have hs : now + w ≤ cas w := hsleep w hw0
    have hmul : w * rl.rate = cost - t1 := div_mul_cancel₀ _ hrate.ne'
    have key : cost ≤ min rl.max (t1 + (cas w - now) * rl.rate) := by
      refine le_min hc1 ?_
      have : w * rl.rate ≤ (cas w - now) * rl.rate :=
        mul_le_mul_of_nonneg_right (by linarith) hrate.le
      linarith
    refine ⟨?_, ?_, rfl, rfl, ?_⟩
    · show (0:ℚ) ≤ min rl.max (t1 + (cas w - now) * rl.rate) - cost
      linarith [key]
    · show min rl.max (t1 + (cas w - now) * rl.rate) - cost ≤ rl.max
      linarith [min_le_left rl.max (t1 + (cas w - now) * rl.rate)]
    · show rl.lastRefill ≤ cas w
      linarith

/-- Claim C8 counterexample: with an injected no-op sleep under a
constant clock (as the repository's own tests inject), a blocking
`acquire` of cost 1 on an empty bucket of capacity 1 drives the token
count to −1, below the claimed lower bound 0. -/
theorem rate_limiter_negative_tokens :
    (((⟨1, 1, 0, 0⟩ : RateLimiter).acquire 1 true 0 (fun _ => 0)).2.tokens = -1) ∧
    ¬ (0 ≤ ((⟨1, 1, 0, 0⟩ : RateLimiter).acquire 1 true 0 (fun _ => 0)).2.tokens) := by
  have h : (((⟨1, 1, 0, 0⟩ : RateLimiter).acquire 1 true 0 (fun _ => 0)).2.tokens = -1) := by
    norm_num [RateLimiter.acquire, RateLimiter.refill]
  exact ⟨h, by rw [h]; norm_num⟩

/-- Claim C8 as amended: the token count stays within `[0, capacity]`
across any sequence of `acquire` calls provided the rate is positive,
the initial count is within `[0, capacity]`, and each call has cost in
`[0, capacity]`, a clock reading not earlier than the limiter's last
refill, and a blocking sleep during which the clock advances by at
least the requested wait; moreover the blocking path suspends for
exactly `(cost - available) / rate`, then refills once and debits. -/
theorem rate_limiter_token_bounds :
    ∀ (ops : List AcquireOp) (rl : RateLimiter), 0 < rl.rate → 0 ≤ rl.tokens →
      rl.tokens ≤ rl.max → ValidOps rl ops →
      (0 ≤ (rl.run ops).tokens ∧ (rl.run ops).tokens ≤ rl.max) ∧
      (∀ (cost now : ℚ) (cas : ℚ → ℚ), (rl.refill now).tokens < cost →
        (rl.acquire cost true now cas).1
          = AcquireResult.ok (some ((cost - (rl.refill now).tokens) / rl.rate)))
  | [], rl, hrate, h0, h1, _ => by
    refine ⟨⟨h0, h1⟩, ?_⟩
    intro cost now cas hlt
    simp only [RateLimiter.refill] at hlt
    simp [RateLimiter.acquire, RateLimiter.refill, not_le.mpr hlt]
  | op :: ops, rl, hrate, h0, h1, hops => by
    obtain ⟨⟨hc0, hc1, hnow, hsleep⟩, hrest⟩ := hops
    obtain ⟨b0, b1, brate, bmax, -⟩ :=
      acquire_bounds rl op.cost op.block op.now op.afterSleep hrate h0 h1 hc0 hc1 hnow hsleep
    have ih := rate_limiter_token_bounds ops
      (rl.acquire op.cost op.block op.now op.afterSleep).2
      (by rw [brate]; exact hrate) b0 (by rw [bmax]; exact b1) hrest
    refine ⟨?_, ?_⟩
    · have hrun : rl.run (op :: ops)
          = (rl.acquire op.cost op.block op.now op.afterSleep).2.run ops := rfl
      rw [hrun]
      exact ⟨ih.1.1, by rw [← bmax]; exact ih.1.2⟩
    · intro cost now cas hlt
      simp only [RateLimiter.refill] at hlt
      simp [RateLimiter.acquire, RateLimiter.refill, not_le.mpr hlt]

/-- Claim C8 (amended) witness: one valid blocking acquire on a full
default bucket. -/
theorem rate_limiter_token_bounds_witness :
    (0 : ℚ) < 1 ∧
    ValidOps ⟨1, 10, 10, 0⟩ [⟨1, true, 0, fun w => w⟩] ∧
    (0 ≤ (RateLimiter.run ⟨1, 10, 10, 0⟩ [⟨1, true, 0, fun w => w⟩]).tokens ∧
      (RateLimiter.run ⟨1, 10, 10, 0⟩ [⟨1, true, 0, fun w => w⟩]).tokens ≤ 10) := by
  have hv : ValidOps ⟨1, 10, 10, 0⟩ [⟨1, true, 0, fun w => w⟩] := by
    refine ⟨⟨by norm_num, by norm_num, le_refl _, fun w hw => by simp⟩, trivial⟩
  refine ⟨by norm_num, hv, ?_⟩
  exact (rate_limiter_token_bounds [⟨1, true, 0, fun w => w⟩] ⟨1, 10, 10, 0⟩
    (by norm_num) (by norm_num) (by norm_num) hv).1

/-- Claim C9: constructing the ledger from unparseable JSON or from a
parseable JSON object with malformed records yields an empty ledger,
but a parseable top-level JSON value that is not an object (an array,
or null) raises `AttributeError` out of the constructor — contradicting
the spec's "malformed storage is treated as an empty ledger (never a
fatal error)". -/
theorem load_malformed_backing_store :
    loadLedger (some (Json.arr [])) = LoadOutcome.raisesAttributeError ∧
    loadLedger (some Json.null) = LoadOutcome.raisesAttributeError ∧
    loadLedger none = LoadOutcome.loaded [] ∧
    loadLedger (some (Json.obj [("records", Json.str "xyz")])) = LoadOutcome.loaded [] ∧
    loadLedger (some (Json.obj [("records", Json.arr [Json.num 1])]))
      = LoadOutcome.loaded [] :=
  ⟨rfl, rfl, rfl, rfl, rfl⟩

/-- Keeping the last `m` elements commutes with appending: retaking
after an append sees the same suffix. -/
theorem rtake_append_rtake {α : Type} (x rest : List α) (m : Nat) :
    ((x.rtake m) ++ rest).rtake m = (x ++ rest).rtake m := by
  simp only [List.rtake_eq_reverse_take_reverse, List.reverse_append, List.reverse_reverse]
  congr 1
  rw [List.take_append_eq_append_take, List.take_append_eq_append_take,
    List.take_take]
  congr 1
  rw [min_eq_left (Nat.sub_le m rest.reverse.length)]

/-- Running a sequence of bounded appends keeps exactly the suffix of
the appended stream fitting the bound. -/
theorem bounded_run_eq (m : Nat) :
    ∀ (rs l : List DeliveryRecord), l.length ≤ m →
      (BoundedDeliveryLog.run ⟨some m, l⟩ rs).records = (l ++ rs).rtake m
  | [], l, hl => by
    simp [BoundedDeliveryLog.run, List.rtake, Nat.sub_eq_zero_of_le hl]
  | r :: rs, l, hl => by
    have hstep : BoundedDeliveryLog.run ⟨some m, l⟩ (r :: rs)
        = BoundedDeliveryLog.run (BoundedDeliveryLog.append ⟨some m, l⟩ r) rs := rfl
    have happ : BoundedDeliveryLog.append ⟨some m, l⟩ r
        = ⟨some m, (l ++ [r]).rtake m⟩ := by
      simp [BoundedDeliveryLog.append, List.rtake]
    have hlen : ((l ++ [r]).rtake m).length ≤ m := by
      simp [List.rtake, List.length_drop]
      omega
    rw [hstep, happ, bounded_run_eq m rs _ hlen, rtake_append_rtake]
    simp

/-- Claim C6 (modelled from the spec, see `BoundedDeliveryLog`): with a
configured bound `m`, after any sequence of appends the ledger holds
the last at-most-`m` records appended (oldest evicted first) and never
more than `m`; appending 5 records under `maxRecords = 3` retains
exactly the 3 most recent, and querying the 2 oldest post ids returns
empty. -/
theorem bounded_ledger_eviction (m : Nat) (rs : List DeliveryRecord) :
    (BoundedDeliveryLog.run ⟨some m, []⟩ rs).records = rs.rtake m ∧
    (BoundedDeliveryLog.run ⟨some m, []⟩ rs).records.length ≤ m ∧
    (BoundedDeliveryLog.run ⟨some 3, []⟩
        [⟨"r0", "p0", "mastodon", "success", "", "", "", []⟩,
         ⟨"r1", "p1", "mastodon", "success", "", "", "", []⟩,
         ⟨"r2", "p2", "mastodon", "success", "", "", "", []⟩,
         ⟨"r3", "p3", "mastodon", "success", "", "", "", []⟩,
         ⟨"r4", "p4", "mastodon", "success", "", "", "", []⟩]).records
      = [⟨"r2", "p2", "mastodon", "success", "", "", "", []⟩,
         ⟨"r3", "p3", "mastodon", "success", "", "", "", []⟩,
         ⟨"r4", "p4", "mastodon", "success", "", "", "", []⟩] ∧
    (BoundedDeliveryLog.run ⟨some 3, []⟩
        [⟨"r0", "p0", "mastodon", "success", "", "", "", []⟩,
         ⟨"r1", "p1", "mastodon", "success", "", "", "", []⟩,
         ⟨"r2", "p2", "mastodon", "success", "", "", "", []⟩,
         ⟨"r3", "p3", "mastodon", "success", "", "", "", []⟩,
         ⟨"r4", "p4", "mastodon", "success", "", "", "", []⟩]).getByPost "p0" = [] ∧
    (BoundedDeliveryLog.run ⟨some 3, []⟩
        [⟨"r0", "p0", "mastodon", "success", "", "", "", []⟩,
         ⟨"r1", "p1", "mastodon", "success", "", "", "", []⟩,
         ⟨"r2", "p2", "mastodon", "success", "", "", "", []⟩,
         ⟨"r3", "p3", "mastodon", "success", "", "", "", []⟩,
         ⟨"r4", "p4", "mastodon", "success", "", "", "", []⟩]).getByPost "p1" = [] := by
  have hgen := bounded_run_eq m rs [] (by simp)
  refine ⟨by simpa using hgen, ?_, by decide, by decide, by decide⟩
  have := bounded_run_eq m rs [] (by simp)
  simp only [List.nil_append] at this
  rw [this]
  simp [List.rtake, List.length_drop]
  omega

/-- Claim C5: when a platform's breaker is OPEN and the reset timeout
has not elapsed, the composed resilience call performs no retry
attempt and never invokes the collaborator (zero raw calls), the
rejection (`CircuitOpenError`) propagates untouched by retry, the
breaker is unchanged, and the per-platform boundary converts it into a
failed record carrying the error's message. -/
theorem open_breaker_no_retry (p : Platform) (postId : String)
    (retryCfg : Option RetryConfig) (limiter : Option RateLimiter)
    (cb : CircuitBreaker) (now : ℚ) (cas : ℚ → ℚ) (rand : Nat → ℚ)
    (f : Nat → Except PlatformErr (Option String))
    (hopen : cb.state = .opened) (hnot : now - cb.lastFailureTime < cb.resetTimeout) :
    (withResilience retryCfg limiter (some cb) now cas rand f).result
      = .error (.circuitOpen (cb.lastFailureTime + cb.resetTimeout)) ∧
    (withResilience retryCfg limiter (some cb) now cas rand f).collabCalls = 0 ∧
    (withResilience retryCfg limiter (some cb) now cas rand f).retryRan = false ∧
    (withResilience retryCfg limiter (some cb) now cas rand f).breaker = some cb ∧
    (dispatchPlatform p postId retryCfg limiter (some cb) now cas rand f).record.status
      = .failed ∧
    (dispatchPlatform p postId retryCfg limiter (some cb) now cas rand f).record.error
      = some (DispatchErr.circuitOpen (cb.lastFailureTime + cb.resetTimeout)).message ∧
    (dispatchPlatform p postId retryCfg limiter (some cb) now cas rand f).collabCalls = 0 := by
  have hwr : (withResilience retryCfg limiter (some cb) now cas rand f).result
        = .error (.circuitOpen (cb.lastFailureTime + cb.resetTimeout)) ∧
      (withResilience retryCfg limiter (some cb) now cas rand f).collabCalls = 0 ∧
      (withResilience retryCfg limiter (some cb) now cas rand f).retryRan = false ∧
      (withResilience retryCfg limiter (some cb) now cas rand f).breaker = some cb := by
    cases retryCfg with
    | none =>
        rw [show withResilience none limiter (some cb) now cas rand f
          = ⟨.error (.circuitOpen (cb.lastFailureTime + cb.resetTimeout)), 0, false,
              limiter.map (fun rl => (rl.acquire 1 true now cas).2), some cb⟩ by
          simp [withResilience, call_open_rejected cb hopen now hnot]]
        exact ⟨rfl, rfl, rfl, rfl⟩
    | some cfg =>
        rw [show withResilience (some cfg) limiter (some cb) now cas rand f
          = ⟨.error (.circuitOpen (cb.lastFailureTime + cb.resetTimeout)), 0, false,
              limiter.map (fun rl => (rl.acquire 1 true now cas).2), some cb⟩ by
          simp [withResilience, call_open_rejected cb hopen now hnot]]
        exact ⟨rfl, rfl, rfl, rfl⟩
  refine ⟨hwr.1, hwr.2.1, hwr.2.2.1, hwr.2.2.2, ?_, ?_, ?_⟩
  · simp [dispatchPlatform, hwr.1, SyndicationRecord.markFailed]
  · simp [dispatchPlatform, hwr.1, SyndicationRecord.markFailed]
  · simp [dispatchPlatform, hwr.1, hwr.2.1]

/-- Claim C5 witness: an OPEN breaker (threshold 1, failure stamped at
time 5, timeout 60) consulted at time 10. -/
theorem open_breaker_no_retry_witness :
    (⟨1, 60, 1, .opened, 1, 0, 5, 0⟩ : CircuitBreaker).state = CircuitState.opened ∧
    ((10 : ℚ) - 5 < 60) ∧
    (withResilience (some ⟨3, 1, 30, 2, true⟩) none
        (some ⟨1, 60, 1, .opened, 1, 0, 5, 0⟩) 10 (fun w => 10 + w) (fun _ => 0)
        (fun _ => .error ⟨"boom", true⟩)).collabCalls = 0 ∧
    (withResilience (some ⟨3, 1, 30, 2, true⟩) none
        (some ⟨1, 60, 1, .opened, 1, 0, 5, 0⟩) 10 (fun w => 10 + w) (fun _ => 0)
        (fun _ => .error ⟨"boom", true⟩)).retryRan = false ∧
    (dispatchPlatform .mastodon "post-1" (some ⟨3, 1, 30, 2, true⟩) none
        (some ⟨1, 60, 1, .opened, 1, 0, 5, 0⟩) 10 (fun w => 10 + w) (fun _ => 0)
        (fun _ => .error ⟨"boom", true⟩)).record.status = .failed := by
  have h := open_breaker_no_retry .mastodon "post-1" (some ⟨3, 1, 30, 2, true⟩) none
    ⟨1, 60, 1, .opened, 1, 0, 5, 0⟩ 10 (fun w => 10 + w) (fun _ => 0)
    (fun _ => .error ⟨"boom", true⟩) rfl (by norm_num)
  exact ⟨rfl, by norm_num, h.2.1, h.2.2.1, h.2.2.2.2.1⟩

/-- The record built by each `_syndicate_<p>` is published on a
returned value and failed (with `str(exc)`) on an escaped error, never
pending, and always tagged with its platform. -/
theorem dispatchPlatform_record (p : Platform) (postId : String)
    (retryCfg : Option RetryConfig) (limiter : Option RateLimiter)
    (breaker : Option CircuitBreaker) (now : ℚ) (cas : ℚ → ℚ) (rand : Nat → ℚ)
    (f : Nat → Except PlatformErr (Option String)) :
    (dispatchPlatform p postId retryCfg limiter breaker now cas rand f).record.platform
      = p ∧
    ((∃ e, (withResilience retryCfg limiter breaker now cas rand f).result = .error e ∧
        (dispatchPlatform p postId retryCfg limiter breaker now cas rand f).record.status
          = .failed ∧
        (dispatchPlatform p postId retryCfg limiter breaker now cas rand f).record.error
          = some e.message) ∨
      (∃ u, (withResilience retryCfg limiter breaker now cas rand f).result = .ok u ∧
        (dispatchPlatform p postId retryCfg limiter breaker now cas rand f).record.status
          = .published ∧
        (dispatchPlatform p postId retryCfg limiter breaker now cas rand f).record.externalUrl
          = some (u.getD (fallbackUrl p postId)))) := by
  cases hres : (withResilience retryCfg limiter breaker now cas rand f).result with
  | ok u =>
      refine ⟨?_, Or.inr ⟨u, rfl, ?_, ?_⟩⟩ <;>
        simp [dispatchPlatform, hres, SyndicationRecord.markPublished]
  | error e =>
      refine ⟨?_, Or.inl ⟨e, rfl, ?_, ?_⟩⟩ <;>
        simp [dispatchPlatform, hres, SyndicationRecord.markFailed]

/-- Each loop iteration's record carries its platform and is never
left pending. -/
theorem syndicateStep_record (env : SynEnv) (retryCfg : Option RetryConfig)
    (clients : ConfiguredClients) (postId : String) (st : SynState) (p : Platform) :
    (syndicateStep env retryCfg clients postId st p).1.platform = p ∧
    (syndicateStep env retryCfg clients postId st p).1.status ≠ .pending := by
  unfold syndicateStep
  by_cases hd : (match st.log with
      | some dl => dl.hasBeenDelivered postId p.value
      | none => false) = true
  · rw [if_pos hd]
    exact ⟨rfl, by simp⟩
  · rw [if_neg hd]
    by_cases hc : clients.has p = true
    · rw [if_pos hc]
      have h := dispatchPlatform_record p postId retryCfg st.limiter
        (List.lookup p.value st.breakers) env.now env.clockAfterSleep env.rand
        (fun k => env.call p (st.counts p + k))
      rcases h.2 with ⟨e, -, hst, -⟩ | ⟨u, -, hst, -⟩ <;>
        exact ⟨h.1, by rw [hst]; simp⟩
    · rw [if_neg hc]
      exact ⟨rfl, by simp⟩

/-- The platform loop processes every platform, appending one record
per iteration. -/
theorem syndicateLoop_length (env : SynEnv) (retryCfg : Option RetryConfig)
    (clients : ConfiguredClients) (postId : String) :
    ∀ (ps : List Platform) (acc : SyndicateResult),
      (syndicateLoop env retryCfg clients postId ps acc).records.length
        = acc.records.length + ps.length ∧
      (∀ r ∈ (syndicateLoop env retryCfg clients postId ps acc).records,
        r ∈ acc.records ∨ r.status ≠ .pending)
  | [], acc => ⟨by simp [syndicateLoop], fun r hr => Or.inl (by simpa [syndicateLoop] using hr)⟩
  | p :: ps, acc => by
    have ih := syndicateLoop_length env retryCfg clients postId ps
      ⟨acc.records ++ [(syndicateStep env retryCfg clients postId acc.state p).1],
        acc.perPlatformCalls
          ++ [(p, (syndicateStep env retryCfg clients postId acc.state p).2.1)],
        (syndicateStep env retryCfg clients postId acc.state p).2.2⟩
    have hloop : syndicateLoop env retryCfg clients postId (p :: ps) acc
        = syndicateLoop env retryCfg clients postId ps
            ⟨acc.records ++ [(syndicateStep env retryCfg clients postId acc.state p).1],
              acc.perPlatformCalls
                ++ [(p, (syndicateStep env retryCfg clients postId acc.state p).2.1)],
              (syndicateStep env retryCfg clients postId acc.state p).2.2⟩ := rfl
    rw [hloop]
    refine ⟨by rw [ih.1]; simp; omega, ?_⟩
    intro r hr
    rcases ih.2 r hr with hmem | hne
    · rcases List.mem_append.mp hmem with h | h
      · exact Or.inl h
      · refine Or.inr ?_
        rw [show r = (syndicateStep env retryCfg clients postId acc.state p).1 by
          simpa using h]
        exact (syndicateStep_record env retryCfg clients postId acc.state p).2
    · exact Or.inr hne

/-- Unfolding `syndicate` at a registered post id. -/
theorem syndicate_some (st : Posse) (env : SynEnv) (postId : String) (post : ContentPost)
    (hpost : st.posts postId = some post) :
    st.syndicate env postId = some
      (syndicateLoop env st.retryConfig st.clients postId post.platforms
        ⟨[], [], ⟨st.breakers, st.rateLimiter, st.deliveryLog, fun _ => 0⟩⟩,
       { st with
          posts := fun pid => if pid = postId then
              some { post with syndications :=
                (syndicateLoop env st.retryConfig st.clients postId post.platforms
                  ⟨[], [], ⟨st.breakers, st.rateLimiter, st.deliveryLog, fun _ => 0⟩⟩).records }
            else st.posts pid,
          breakers := (syndicateLoop env st.retryConfig st.clients postId post.platforms
            ⟨[], [], ⟨st.breakers, st.rateLimiter, st.deliveryLog, fun _ => 0⟩⟩).state.breakers,
          rateLimiter := (syndicateLoop env st.retryConfig st.clients postId post.platforms
            ⟨[], [], ⟨st.breakers, st.rateLimiter, st.deliveryLog, fun _ => 0⟩⟩).state.limiter,
          deliveryLog := (syndicateLoop env st.retryConfig st.clients postId post.platforms
            ⟨[], [], ⟨st.breakers, st.rateLimiter, st.deliveryLog, fun _ => 0⟩⟩).state.log }) := by
  unfold Posse.syndicate
  rw [hpost]

/-- Claim C7: the fan-out is total — `syndicate` returns one record per
target platform regardless of which platforms error, no record is left
pending — and any error escaping one platform's resilience chain is
caught at that platform's boundary and converted into a failed record
carrying the error's message. -/
theorem syndicate_error_isolation :
    (∀ (st : Posse) (env : SynEnv) (postId : String) (post : ContentPost),
      st.posts postId = some post →
      ∃ res st', st.syndicate env postId = some (res, st') ∧
        res.records.length = post.platforms.length ∧
        ∀ r ∈ res.records, r.status ≠ .pending) ∧
    (∀ (p : Platform) (postId : String) (retryCfg : Option RetryConfig)
        (limiter : Option RateLimiter) (breaker : Option CircuitBreaker)
        (now : ℚ) (cas : ℚ → ℚ) (rand : Nat → ℚ)
        (f : Nat → Except PlatformErr (Option String)) (e : DispatchErr),
      (withResilience retryCfg limiter breaker now cas rand f).result = .error e →
        (dispatchPlatform p postId retryCfg limiter breaker now cas rand f).record.status
          = .failed ∧
        (dispatchPlatform p postId retryCfg limiter breaker now cas rand f).record.error
          = some e.message) := by
  constructor
  · intro st env postId post hpost
    refine ⟨_, _, syndicate_some st env postId post hpost, ?_, ?_⟩
    · have := (syndicateLoop_length env st.retryConfig st.clients postId post.platforms
        ⟨[], [], ⟨st.breakers, st.rateLimiter, st.deliveryLog, fun _ => 0⟩⟩).1
      simpa using this
    · intro r hr
      have := (syndicateLoop_length env st.retryConfig st.clients postId post.platforms
        ⟨[], [], ⟨st.breakers, st.rateLimiter, st.deliveryLog, fun _ => 0⟩⟩).2 r hr
      simpa using this
  · intro p postId retryCfg limiter breaker now cas rand f e hres
    have h := (dispatchPlatform_record p postId retryCfg limiter breaker now cas rand f).2
    rcases h with ⟨e', he', hst, herr⟩ | ⟨u, hu, -, -⟩
    · rw [hres] at he'
      cases he'
      exact ⟨hst, herr⟩
    · rw [hres] at hu
      cases hu

/-- Claim C7 witness: a one-platform post whose (absent) collaborator
path and an always-failing raw call both yield failed/skipped records
without aborting the fan-out. -/
theorem syndicate_error_isolation_witness :
    ((fun pid => if pid = "p1" then
        some (ContentPost.mk "p1" "t" "b" "u" [Platform.rss] []) else none) "p1"
      = some (ContentPost.mk "p1" "t" "b" "u" [Platform.rss] [])) ∧
    (∃ res st',
      Posse.syndicate
        ⟨fun pid => if pid = "p1" then
            some (ContentPost.mk "p1" "t" "b" "u" [Platform.rss] []) else none,
          {}, none, [], none, none⟩
        ⟨fun _ _ => .error ⟨"boom", true⟩, 0, "ts", fun _ => 0, fun w => w⟩ "p1"
        = some (res, st') ∧
      res.records.length = 1 ∧
      ∀ r ∈ res.records, r.status ≠ .pending) ∧
    ((withResilience none none none 0 (fun w => w) (fun _ => 0)
        (fun _ => .error ⟨"boom", true⟩)).result
      = .error (.platformErr ⟨"boom", true⟩) ∧
      (dispatchPlatform .mastodon "p1" none none none 0 (fun w => w) (fun _ => 0)
        (fun _ => .error ⟨"boom", true⟩)).record.status = .failed) := by
  have hpost : ((fun pid => if pid = "p1" then
      some (ContentPost.mk "p1" "t" "b" "u" [Platform.rss] []) else none) "p1"
      = some (ContentPost.mk "p1" "t" "b" "u" [Platform.rss] [])) := by simp
  refine ⟨hpost, ?_, rfl, ?_⟩
  · have h := syndicate_error_isolation.1
      ⟨fun pid => if pid = "p1" then
          some (ContentPost.mk "p1" "t" "b" "u" [Platform.rss] []) else none,
        {}, none, [], none, none⟩
      ⟨fun _ _ => .error ⟨"boom", true⟩, 0, "ts", fun _ => 0, fun w => w⟩ "p1"
      (ContentPost.mk "p1" "t" "b" "u" [Platform.rss] []) hpost
    exact h
  · exact (syndicate_error_isolation.2 .mastodon "p1" none none none 0 (fun w => w)
      (fun _ => 0) (fun _ => .error ⟨"boom", true⟩) (.platformErr ⟨"boom", true⟩) rfl).1

/-- `Platform.value` is injective. -/
theorem Platform.value_inj : ∀ p q : Platform, p.value = q.value → p = q := by
  intro p q
  cases p <;> cases q <;> intro h <;> first | rfl | exact absurd h (by decide)

/-- Appending a record for a different platform leaves
`has_been_delivered` for the pair unchanged. -/
theorem hasBeenDelivered_append_ne (dl : DeliveryLog) (r : DeliveryRecord)
    (pid plat : String) (h : r.platform ≠ plat) :
    (dl.append r).hasBeenDelivered pid plat = dl.hasBeenDelivered pid plat := by
  simp [DeliveryLog.hasBeenDelivered, DeliveryLog.append, h]

/-- Appending a record for a different platform leaves the pair's
stored records unchanged. -/
theorem filter_append_ne (dl : DeliveryLog) (r : DeliveryRecord)
    (pid plat : String) (h : r.platform ≠ plat) :
    (dl.append r).records.filter (fun x => x.postId = pid && x.platform = plat)
      = dl.records.filter (fun x => x.postId = pid && x.platform = plat) := by
  simp [DeliveryLog.append, List.filter_append, h]

/-- The dedup branch of the platform loop: a recorded success short
circuits the iteration with a skip record, zero collaborator calls and
an untouched state. -/
theorem syndicateStep_dedup (env : SynEnv) (retryCfg : Option RetryConfig)
    (clients : ConfiguredClients) (postId : String) (st : SynState) (p : Platform)
    (dl : DeliveryLog) (hlog : st.log = some dl)
    (hdel : dl.hasBeenDelivered postId p.value = true) :
    syndicateStep env retryCfg clients postId st p
      = ({ platform := p, status := .skipped, externalUrl := none, publishedAt := none,
           error := some "Already delivered (dedup)" }, 0, st) := by
  simp [syndicateStep, hlog, hdel]

/-- A loop iteration either leaves the log untouched (dedup skip) or
appends exactly one `DeliveryRecord` keyed to its own platform. -/
theorem syndicateStep_log_cases (env : SynEnv) (retryCfg : Option RetryConfig)
    (clients : ConfiguredClients) (postId : String) (st : SynState) (p : Platform) :
    (syndicateStep env retryCfg clients postId st p).2.2.log = st.log ∨
    ∃ rec : DeliveryRecord, rec.platform = p.value ∧
      ((st.log = none ∧ (syndicateStep env retryCfg clients postId st p).2.2.log = none) ∨
       ∃ dl, st.log = some dl ∧
        (syndicateStep env retryCfg clients postId st p).2.2.log = some (dl.append rec)) := by
  unfold syndicateStep
  by_cases hd : (match st.log with
      | some dl => dl.hasBeenDelivered postId p.value
      | none => false) = true
  · rw [if_pos hd]
    exact Or.inl rfl
  · rw [if_neg hd]
    by_cases hc : clients.has p = true
    · rw [if_pos hc]
      refine Or.inr ⟨⟨postId ++ "-" ++ p.value, postId, p.value,
        if (dispatchPlatform p postId retryCfg st.limiter
            (List.lookup p.value st.breakers) env.now env.clockAfterSleep env.rand
            (fun k => env.call p (st.counts p + k))).record.status = .published
          then "success" else "failure",
        env.nowIso,
        (dispatchPlatform p postId retryCfg st.limiter
          (List.lookup p.value st.breakers) env.now env.clockAfterSleep env.rand
          (fun k => env.call p (st.counts p + k))).record.externalUrl.getD "",
        (dispatchPlatform p postId retryCfg st.limiter
          (List.lookup p.value st.breakers) env.now env.clockAfterSleep env.rand
          (fun k => env.call p (st.counts p + k))).record.error.getD "", []⟩, rfl, ?_⟩
      cases hlog : st.log with
      | none => exact Or.inl ⟨rfl, rfl⟩
      | some dl => exact Or.inr ⟨dl, rfl, rfl⟩
    · rw [if_neg hc]
      refine Or.inr ⟨⟨postId ++ "-" ++ p.value, postId, p.value, "failure",
        env.nowIso, "", "No client configured for " ++ p.value, []⟩, rfl, ?_⟩
      cases hlog : st.log with
      | none => exact Or.inl ⟨rfl, by simp [logDelivery, hlog]⟩
      | some dl => exact Or.inr ⟨dl, rfl, by simp [logDelivery, hlog]⟩

/-- A loop iteration for a platform other than `X` preserves the
`(postId, X)` entries of the log and `has_been_delivered` for that
pair. -/
theorem syndicateStep_preserves_other (env : SynEnv) (retryCfg : Option RetryConfig)
    (clients : ConfiguredClients) (postId : String) (st : SynState) (p X : Platform)
    (dl : DeliveryLog) (hne : p ≠ X) (hlog : st.log = some dl) :
    ∃ dl', (syndicateStep env retryCfg clients postId st p).2.2.log = some dl' ∧
      dl'.hasBeenDelivered postId X.value = dl.hasBeenDelivered postId X.value ∧
      dl'.records.filter (fun x => x.postId = postId && x.platform = X.value)
        = dl.records.filter (fun x => x.postId = postId && x.platform = X.value) := by
  have hvne : p.value ≠ X.value := fun hv => hne (Platform.value_inj p X hv)
  rcases syndicateStep_log_cases env retryCfg clients postId st p with heq | ⟨rec, hplat, hcases⟩
  · exact ⟨dl, by rw [heq, hlog], rfl, rfl⟩
  · rcases hcases with ⟨hnone, -⟩ | ⟨dl2, hdl2, heq⟩
    · rw [hlog] at hnone
      cases hnone
    · rw [hlog] at hdl2
      cases hdl2
      refine ⟨dl.append rec, heq, ?_, ?_⟩
      · exact hasBeenDelivered_append_ne dl rec postId X.value (by rw [hplat]; exact hvne)
      · exact filter_append_ne dl rec postId X.value (by rw [hplat]; exact hvne)

/-- Dedup invariant along the platform loop: while the log records a
success for `(postId, X)`, every new record for `X` is a dedup skip
with zero collaborator calls, and the `(postId, X)` entries of the log
never change. -/
theorem syndicateLoop_dedup (env : SynEnv) (retryCfg : Option RetryConfig)
    (clients : ConfiguredClients) (postId : String) (X : Platform) :
    ∀ (ps : List Platform) (acc : SyndicateResult) (dl : DeliveryLog),
      acc.state.log = some dl →
      dl.hasBeenDelivered postId X.value = true →
      ((∀ r ∈ (syndicateLoop env retryCfg clients postId ps acc).records,
          r ∈ acc.records ∨ r.platform ≠ X ∨
            (r.status = .skipped ∧ r.error = some "Already delivered (dedup)")) ∧
       (∀ qn ∈ (syndicateLoop env retryCfg clients postId ps acc).perPlatformCalls,
          qn ∈ acc.perPlatformCalls ∨ qn.1 ≠ X ∨ qn.2 = 0) ∧
       (∃ dl', (syndicateLoop env retryCfg clients postId ps acc).state.log = some dl' ∧
          dl'.hasBeenDelivered postId X.value = true ∧
          dl'.records.filter (fun x => x.postId = postId && x.platform = X.value)
            = dl.records.filter (fun x => x.postId = postId && x.platform = X.value)))
  | [], acc, dl, hlog, hdel =>
      ⟨fun r hr => Or.inl hr, fun qn hq => Or.inl hq, dl, hlog, hdel, rfl⟩
  | p :: ps, acc, dl, hlog, hdel => by
    have hloop : syndicateLoop env retryCfg clients postId (p :: ps) acc
        = syndicateLoop env retryCfg clients postId ps
            ⟨acc.records ++ [(syndicateStep env retryCfg clients postId acc.state p).1],
              acc.perPlatformCalls
                ++ [(p, (syndicateStep env retryCfg clients postId acc.state p).2.1)],
              (syndicateStep env retryCfg clients postId acc.state p).2.2⟩ := rfl
    by_cases hpX : p = X
    · subst hpX
      have hstep := syndicateStep_dedup env retryCfg clients postId acc.state p dl hlog hdel
      obtain ⟨ih1, ih2, dl', hlog', hdel', hfil⟩ :=
        syndicateLoop_dedup env retryCfg clients postId p ps
          ⟨acc.records ++ [(syndicateStep env retryCfg clients postId acc.state p).1],
            acc.perPlatformCalls
              ++ [(p, (syndicateStep env retryCfg clients postId acc.state p).2.1)],
            (syndicateStep env retryCfg clients postId acc.state p).2.2⟩ dl
          (by rw [hstep]; exact hlog) hdel
      rw [hloop]
      refine ⟨?_, ?_, dl', hlog', hdel', hfil⟩
      · intro r hr
        rcases ih1 r hr with hmem | hrest
        · rcases List.mem_append.mp hmem with h | h
          · exact Or.inl h
          · refine Or.inr (Or.inr ?_)
            rw [show r = (syndicateStep env retryCfg clients postId acc.state p).1 by
              simpa using h, hstep]
            exact ⟨rfl, rfl⟩
        · exact Or.inr hrest
      · intro qn hq
        rcases ih2 qn hq with hmem | hrest
        · rcases List.mem_append.mp hmem with h | h
          · exact Or.inl h
          · refine Or.inr (Or.inr ?_)
            rw [show qn = (p, (syndicateStep env retryCfg clients postId acc.state p).2.1) by
              simpa using h, hstep]
        · exact Or.inr hrest
    · obtain ⟨dlmid, hmid, hdelmid, hfilmid⟩ :=
        syndicateStep_preserves_other env retryCfg clients postId acc.state p X dl hpX hlog
      obtain ⟨ih1, ih2, dl', hlog', hdel', hfil⟩ :=
        syndicateLoop_dedup env retryCfg clients postId X ps
          ⟨acc.records ++ [(syndicateStep env retryCfg clients postId acc.state p).1],
            acc.perPlatformCalls
              ++ [(p, (syndicateStep env retryCfg clients postId acc.state p).2.1)],
            (syndicateStep env retryCfg clients postId acc.state p).2.2⟩ dlmid
          hmid (by rw [hdelmid]; exact hdel)
      rw [hloop]
      refine ⟨?_, ?_, dl', hlog', hdel', hfil.trans hfilmid⟩
      · intro r hr
        rcases ih1 r hr with hmem | hrest
        · rcases List.mem_append.mp hmem with h | h
          · exact Or.inl h
          · refine Or.inr (Or.inl ?_)
            rw [show r = (syndicateStep env retryCfg clients postId acc.state p).1 by
              simpa using h]
            rw [(syndicateStep_record env retryCfg clients postId acc.state p).1]
            exact hpX
        · exact Or.inr hrest
      · intro qn hq
        rcases ih2 qn hq with hmem | hrest
        · rcases List.mem_append.mp hmem with h | h
          · exact Or.inl h
          · refine Or.inr (Or.inl ?_)
            rw [show qn = (p, (syndicateStep env retryCfg clients postId acc.state p).2.1) by
              simpa using h]
            exact hpX
        · exact Or.inr hrest

/-- Claim C1: once the ledger holds a success record for
`(postId, X)`, every `syndicate` of that post yields a skipped record
with error "Already delivered (dedup)" for `X`, performs zero
collaborator calls for `X`, and appends no new `DeliveryRecord` for
the pair; and `has_been_delivered` is true exactly when some stored
record for the pair has success status. -/
theorem dedup_invariant (st : Posse) (env : SynEnv) (postId : String)
    (post : ContentPost) (X : Platform) (dl : DeliveryLog)
    (hpost : st.posts postId = some post)
    (hlog : st.deliveryLog = some dl)
    (hdel : dl.hasBeenDelivered postId X.value = true) :
    (∃ res st', st.syndicate env postId = some (res, st') ∧
      (∀ r ∈ res.records, r.platform = X →
        r.status = .skipped ∧ r.error = some "Already delivered (dedup)") ∧
      (∀ qn ∈ res.perPlatformCalls, qn.1 = X → qn.2 = 0) ∧
      (∃ dl', st'.deliveryLog = some dl' ∧
        dl'.records.filter (fun x => x.postId = postId && x.platform = X.value)
          = dl.records.filter (fun x => x.postId = postId && x.platform = X.value))) ∧
    (∀ (log : DeliveryLog) (pid plat : String),
      log.hasBeenDelivered pid plat = true ↔
        ∃ r ∈ log.records, r.postId = pid ∧ r.platform = plat ∧ r.status = "success") := by
  constructor
  · obtain ⟨h1, h2, dl', hlog', -, hfil⟩ :=
      syndicateLoop_dedup env st.retryConfig st.clients postId X post.platforms
        ⟨[], [], ⟨st.breakers, st.rateLimiter, st.deliveryLog, fun _ => 0⟩⟩ dl hlog hdel
    refine ⟨_, _, syndicate_some st env postId post hpost, ?_, ?_, dl', hlog', hfil⟩
    · intro r hr hrX
      rcases h1 r hr with hmem | hne | hgoal
      · exact absurd hmem (by simp)
      · exact absurd hrX hne
      · exact hgoal
    · intro qn hq hqX
      rcases h2 qn hq with hmem | hne | hgoal
      · exact absurd hmem (by simp)
      · exact absurd hqX hne
      · exact hgoal
  · intro log pid plat
    simp [DeliveryLog.hasBeenDelivered, List.any_eq_true, and_assoc]

/-- Claim C1 witness: a ledger holding a success for
`("p1", mastodon)` and a post targeting mastodon. -/
theorem dedup_invariant_witness :
    (DeliveryLog.mk [⟨"p1-mastodon", "p1", "mastodon", "success", "", "", "", []⟩]
      ).hasBeenDelivered "p1" Platform.mastodon.value = true ∧
    (∃ res st',
      Posse.syndicate
        ⟨fun pid => if pid = "p1" then
            some (ContentPost.mk "p1" "t" "b" "u" [Platform.mastodon] []) else none,
          ⟨false, false, false, false⟩, none, [], none,
          some (DeliveryLog.mk
            [⟨"p1-mastodon", "p1", "mastodon", "success", "", "", "", []⟩])⟩
        ⟨fun _ _ => .error ⟨"boom", true⟩, 0, "ts", fun _ => 0, fun w => w⟩ "p1"
        = some (res, st') ∧
      (∀ r ∈ res.records, r.platform = Platform.mastodon →
        r.status = .skipped ∧ r.error = some "Already delivered (dedup)") ∧
      (∀ qn ∈ res.perPlatformCalls, qn.1 = Platform.mastodon → qn.2 = 0) ∧
      (∃ dl', st'.deliveryLog = some dl' ∧
        dl'.records.filter (fun x => x.postId = "p1" && x.platform = Platform.mastodon.value)
          = (DeliveryLog.mk
              [⟨"p1-mastodon", "p1", "mastodon", "success", "", "", "", []⟩]
            ).records.filter
              (fun x => x.postId = "p1" && x.platform = Platform.mastodon.value))) := by
  have h := dedup_invariant
    ⟨fun pid => if pid = "p1" then
        some (ContentPost.mk "p1" "t" "b" "u" [Platform.mastodon] []) else none,
      ⟨false, false, false, false⟩, none, [], none,
      some (DeliveryLog.mk
        [⟨"p1-mastodon", "p1", "mastodon", "success", "", "", "", []⟩])⟩
    ⟨fun _ _ => .error ⟨"boom", true⟩, 0, "ts", fun _ => 0, fun w => w⟩ "p1"
    (ContentPost.mk "p1" "t" "b" "u" [Platform.mastodon] []) Platform.mastodon
    (DeliveryLog.mk [⟨"p1-mastodon", "p1", "mastodon", "success", "", "", "", []⟩])
    (by simp) rfl (by decide)
  exact ⟨by decide, h.1⟩


/-- Appending a record whose status is not "success" leaves
`has_been_delivered` unchanged for every pair. -/
theorem hasBeenDelivered_append_failure (dl : DeliveryLog) (r : DeliveryRecord)
    (pid plat : String) (h : r.status ≠ "success") :
    (dl.append r).hasBeenDelivered pid plat = dl.hasBeenDelivered pid plat := by
  simp [DeliveryLog.hasBeenDelivered, DeliveryLog.append, h]

/-- Appending a record keyed to the pair extends the pair's stored
records by exactly that record. -/
theorem filter_append_hit (dl : DeliveryLog) (r : DeliveryRecord)
    (pid plat : String) (hp : r.postId = pid) (hpl : r.platform = plat) :
    (dl.append r).records.filter (fun x => x.postId = pid && x.platform = plat)
      = dl.records.filter (fun x => x.postId = pid && x.platform = plat) ++ [r] := by
  simp [DeliveryLog.append, List.filter_append, hp, hpl]

/-- The `DeliveryRecord` that `_log_delivery` appends for a
"No client configured" skip: keyed to the pair, status "failure". -/
def noClientFailRecord (postId : String) (p : Platform) (nowIso : String) : DeliveryRecord :=
  ⟨postId ++ "-" ++ p.value, postId, p.value, "failure", nowIso, "",
   "No client configured for " ++ p.value, []⟩

/-- The no-client branch of the platform loop: with no prior success
for the pair and no configured client, the iteration produces the
"No client configured" skip record, zero collaborator calls, and
appends (via the generic `_log_delivery`) a "failure" `DeliveryRecord`
for the pair. -/
theorem syndicateStep_no_client (env : SynEnv) (retryCfg : Option RetryConfig)
    (clients : ConfiguredClients) (postId : String) (st : SynState) (p : Platform)
    (dl : DeliveryLog) (hlog : st.log = some dl)
    (hdel : dl.hasBeenDelivered postId p.value = false)
    (hclient : clients.has p = false) :
    syndicateStep env retryCfg clients postId st p
      = (⟨p, .skipped, none, none, some ("No client configured for " ++ p.value)⟩, 0,
          ⟨st.breakers, st.limiter,
            some (dl.append (noClientFailRecord postId p env.nowIso)),
            st.counts⟩) := by
  simp [syndicateStep, hlog, hdel, hclient, logDelivery, DeliveryLog.append,
    noClientFailRecord]

/-- No-client invariant along the platform loop: while the log holds
no success for `(postId, X)` and `X` has no configured client, every
new record for `X` is the "No client configured" skip, each `X`
iteration appends the corresponding "failure" `DeliveryRecord`, and
`has_been_delivered` for the pair stays false. -/
theorem syndicateLoop_no_client (env : SynEnv) (retryCfg : Option RetryConfig)
    (clients : ConfiguredClients) (postId : String) (X : Platform)
    (hclient : clients.has X = false) :
    ∀ (ps : List Platform) (acc : SyndicateResult) (dl : DeliveryLog),
      acc.state.log = some dl →
      dl.hasBeenDelivered postId X.value = false →
      ((∀ r ∈ acc.records, r ∈ (syndicateLoop env retryCfg clients postId ps acc).records) ∧
       (∀ r ∈ (syndicateLoop env retryCfg clients postId ps acc).records,
          r ∈ acc.records ∨ r.platform ≠ X ∨
            (r.status = .skipped ∧
              r.error = some ("No client configured for " ++ X.value))) ∧
       (X ∈ ps → ∃ r ∈ (syndicateLoop env retryCfg clients postId ps acc).records,
          r.platform = X) ∧
       (∃ dl', (syndicateLoop env retryCfg clients postId ps acc).state.log = some dl' ∧
          dl'.hasBeenDelivered postId X.value = false ∧
          dl'.records.filter (fun x => x.postId = postId && x.platform = X.value)
            = dl.records.filter (fun x => x.postId = postId && x.platform = X.value)
              ++ List.replicate (ps.count X) (noClientFailRecord postId X env.nowIso)))
  | [], acc, dl, hlog, hdel =>
      ⟨fun _ hr => hr, fun r hr => Or.inl hr, by simp, dl, hlog, hdel, by simp⟩
  | p :: ps, acc, dl, hlog, hdel => by
    have hloop : syndicateLoop env retryCfg clients postId (p :: ps) acc
        = syndicateLoop env retryCfg clients postId ps
            ⟨acc.records ++ [(syndicateStep env retryCfg clients postId acc.state p).1],
              acc.perPlatformCalls
                ++ [(p, (syndicateStep env retryCfg clients postId acc.state p).2.1)],
              (syndicateStep env retryCfg clients postId acc.state p).2.2⟩ := rfl
    by_cases hpX : p = X
    · subst hpX
      have hstep := syndicateStep_no_client env retryCfg clients postId acc.state p dl
        hlog hdel hclient
      have hstatus : (noClientFailRecord postId p env.nowIso).status ≠ "success" := by
        simp [noClientFailRecord]
      have hdel1 : ((dl.append (noClientFailRecord postId p env.nowIso)).hasBeenDelivered
          postId p.value) = false := by
        rw [hasBeenDelivered_append_failure dl _ postId p.value hstatus]
        exact hdel
      obtain ⟨ihsub, ihchar, -, dl'', hlog'', hdel'', hfil''⟩ :=
        syndicateLoop_no_client env retryCfg clients postId p hclient ps
          ⟨acc.records ++ [(syndicateStep env retryCfg clients postId acc.state p).1],
            acc.perPlatformCalls
              ++ [(p, (syndicateStep env retryCfg clients postId acc.state p).2.1)],
            (syndicateStep env retryCfg clients postId acc.state p).2.2⟩
          (dl.append (noClientFailRecord postId p env.nowIso))
          (by rw [hstep]) hdel1
      rw [hloop]
      refine ⟨?_, ?_, ?_, dl'', hlog'', hdel'', ?_⟩
      · intro r hr
        exact ihsub r (List.mem_append.mpr (Or.inl hr))
      · intro r hr
        rcases ihchar r hr with hmem | hrest
        · rcases List.mem_append.mp hmem with h | h
          · exact Or.inl h
          · refine Or.inr (Or.inr ?_)
            rw [show r = (syndicateStep env retryCfg clients postId acc.state p).1 by
              simpa using h, hstep]
            exact ⟨rfl, rfl⟩
        · exact Or.inr hrest
      · intro _
        refine ⟨(syndicateStep env retryCfg clients postId acc.state p).1,
          ihsub _ (List.mem_append.mpr (Or.inr (by simp))), ?_⟩
        exact (syndicateStep_record env retryCfg clients postId acc.state p).1
      · rw [hfil'', filter_append_hit dl _ postId p.value
          (by simp [noClientFailRecord]) (by simp [noClientFailRecord]),
          List.append_assoc, List.singleton_append, List.count_cons_self,
          List.replicate_succ]
    · obtain ⟨dlmid, hmid, hdelmid, hfilmid⟩ :=
        syndicateStep_preserves_other env retryCfg clients postId acc.state p X dl hpX hlog
      obtain ⟨ihsub, ihchar, ihex, dl'', hlog'', hdel'', hfil''⟩ :=
        syndicateLoop_no_client env retryCfg clients postId X hclient ps
          ⟨acc.records ++ [(syndicateStep env retryCfg clients postId acc.state p).1],
            acc.perPlatformCalls
              ++ [(p, (syndicateStep env retryCfg clients postId acc.state p).2.1)],
            (syndicateStep env retryCfg clients postId acc.state p).2.2⟩ dlmid
          hmid (by rw [hdelmid]; exact hdel)
      rw [hloop]
      refine ⟨?_, ?_, ?_, dl'', hlog'', hdel'', ?_⟩
      · intro r hr
        exact ihsub r (List.mem_append.mpr (Or.inl hr))
      · intro r hr
        rcases ihchar r hr with hmem | hrest
        · rcases List.mem_append.mp hmem with h | h
          · exact Or.inl h
          · refine Or.inr (Or.inl ?_)
            rw [show r = (syndicateStep env retryCfg clients postId acc.state p).1 by
              simpa using h]
            rw [(syndicateStep_record env retryCfg clients postId acc.state p).1]
            exact hpX
        · exact Or.inr hrest
      · intro hX
        rcases List.mem_cons.mp hX with heq | hin
        · exact absurd heq.symm hpX
        · exact ihex hin
      · rw [hfil'', hfilmid, List.count_cons_of_ne (Ne.symm hpX)]

/-- Claim C10: for every platform `X` in a post's target set with no
configured client, `syndicate` produces a skipped record with error
"No client configured for <platform>" and appends, via the generic
per-platform logging call, a `DeliveryRecord` with status "failure"
for the pair — one per occurrence of `X` in the target set — so
`has_been_delivered` stays false for the pair; by contrast, a dedup
skip leaves the loop state, and hence the ledger, untouched. -/
theorem no_client_skip_logged (st : Posse) (env : SynEnv) (postId : String)
    (post : ContentPost) (X : Platform) (dl : DeliveryLog)
    (hpost : st.posts postId = some post)
    (hclient : st.clients.has X = false)
    (hlog : st.deliveryLog = some dl)
    (hdel : dl.hasBeenDelivered postId X.value = false) :
    (∃ res st', st.syndicate env postId = some (res, st') ∧
      (∀ r ∈ res.records, r.platform = X →
        r.status = .skipped ∧
        r.error = some ("No client configured for " ++ X.value)) ∧
      (X ∈ post.platforms → ∃ r ∈ res.records, r.platform = X) ∧
      (∃ dl', st'.deliveryLog = some dl' ∧
        dl'.records.filter (fun x => x.postId = postId && x.platform = X.value)
          = dl.records.filter (fun x => x.postId = postId && x.platform = X.value)
            ++ List.replicate (post.platforms.count X)
                (noClientFailRecord postId X env.nowIso) ∧
        dl'.hasBeenDelivered postId X.value = false)) ∧
    (∀ (env' : SynEnv) (retryCfg : Option RetryConfig) (clients : ConfiguredClients)
        (stS : SynState) (q : Platform) (dl0 : DeliveryLog),
      stS.log = some dl0 → dl0.hasBeenDelivered postId q.value = true →
      (syndicateStep env' retryCfg clients postId stS q).2.2 = stS ∧
      (syndicateStep env' retryCfg clients postId stS q).2.2.log = stS.log) := by
  constructor
  · obtain ⟨-, hchar, hex, dl', hlog', hdel', hfil'⟩ :=
      syndicateLoop_no_client env st.retryConfig st.clients postId X hclient
        post.platforms
        ⟨[], [], ⟨st.breakers, st.rateLimiter, st.deliveryLog, fun _ => 0⟩⟩ dl hlog hdel
    refine ⟨_, _, syndicate_some st env postId post hpost, ?_, hex, dl', hlog',
      hfil', hdel'⟩
    intro r hr hrX
    rcases hchar r hr with hmem | hne | hgoal
    · exact absurd hmem (by simp)
    · exact absurd hrX hne
    · exact hgoal
  · intro env' retryCfg clients stS q dl0 hl0 hd0
    rw [syndicateStep_dedup env' retryCfg clients postId stS q dl0 hl0 hd0]
    exact ⟨rfl, rfl⟩

/-- Claim C10 witness: a post targeting `[mastodon, twitter]` with no
clients configured, against an empty ledger; `twitter` (no client
slot exists for it) gets the skip record and the logged failure. -/
theorem no_client_skip_logged_witness :
    ((ConfiguredClients.mk false false false false).has Platform.twitter = false) ∧
    ((DeliveryLog.mk []).hasBeenDelivered "p1" Platform.twitter.value = false) ∧
    (∃ res st',
      Posse.syndicate
        ⟨fun pid => if pid = "p1" then
            some (ContentPost.mk "p1" "t" "b" "u"
              [Platform.mastodon, Platform.twitter] []) else none,
          ⟨false, false, false, false⟩, none, [], none, some (DeliveryLog.mk [])⟩
        ⟨fun _ _ => .error ⟨"boom", true⟩, 0, "ts", fun _ => 0, fun w => w⟩ "p1"
        = some (res, st') ∧
      (∀ r ∈ res.records, r.platform = Platform.twitter →
        r.status = .skipped ∧
        r.error = some ("No client configured for " ++ Platform.twitter.value)) ∧
      (Platform.twitter ∈ (ContentPost.mk "p1" "t" "b" "u"
          [Platform.mastodon, Platform.twitter] []).platforms →
        ∃ r ∈ res.records, r.platform = Platform.twitter) ∧
      (∃ dl', st'.deliveryLog = some dl' ∧
        dl'.records.filter
            (fun x => x.postId = "p1" && x.platform = Platform.twitter.value)
          = (DeliveryLog.mk []).records.filter
              (fun x => x.postId = "p1" && x.platform = Platform.twitter.value)
            ++ List.replicate ((ContentPost.mk "p1" "t" "b" "u"
                  [Platform.mastodon, Platform.twitter] []).platforms.count
                    Platform.twitter)
                (noClientFailRecord "p1" Platform.twitter "ts") ∧
        dl'.hasBeenDelivered "p1" Platform.twitter.value = false)) := by
  have h := no_client_skip_logged
    ⟨fun pid => if pid = "p1" then
        some (ContentPost.mk "p1" "t" "b" "u"
          [Platform.mastodon, Platform.twitter] []) else none,
      ⟨false, false, false, false⟩, none, [], none, some (DeliveryLog.mk [])⟩
    ⟨fun _ _ => .error ⟨"boom", true⟩, 0, "ts", fun _ => 0, fun w => w⟩ "p1"
    (ContentPost.mk "p1" "t" "b" "u" [Platform.mastodon, Platform.twitter] [])
    Platform.twitter (DeliveryLog.mk []) (by simp) rfl rfl (by decide)
  exact ⟨rfl, by decide, h.1⟩
